import Mathlib

/-!
Verification of the lesion-level evaluation script
`custom_scripts/F_evaluate_quantitative.py`.

The script converts a pair of integer-labelled 3-D volumes (ground truth and
prediction) into per-class lesion instances via connected-component labeling
(scipy.ndimage.label with a 3x3x3 all-ones structuring element, i.e. full
26-connectivity), makes the two instance-ID spaces disjoint by shifting the
predicted IDs, matches instances by voxel overlap, and derives TP/FP/FN counts
and a detection F1 per case, which are then assembled into cohort tables.

The embedding models a volume as a function from a finite 3-D index space to
integers, so "same shape" is enforced by the type except where shape mismatch
itself is the subject (see `NVol` below).
-/

set_option maxRecDepth 8000

namespace LesionEval

/-- Voxel positions of a 3-D volume with dimensions `d1 × d2 × d3`. -/
abbrev Pos (d1 d2 d3 : ℕ) := Fin d1 × Fin d2 × Fin d3

/-- A 3-D array of integer class labels (0 = background, 1 = basal lesion,
2 = new-or-evolving lesion), as loaded by `read_labels_and_preds`. -/
abbrev Vol (d1 d2 d3 : ℕ) := Pos d1 d2 d3 → ℤ

/-- Two coordinates at distance at most one (`|a - b| ≤ 1` on naturals). -/
def near (a b : ℕ) : Prop := a ≤ b + 1 ∧ b ≤ a + 1

instance (a b : ℕ) : Decidable (near a b) :=
  inferInstanceAs (Decidable (a ≤ b + 1 ∧ b ≤ a + 1))

lemma near_refl (a : ℕ) : near a a := ⟨Nat.le_succ a, Nat.le_succ a⟩

lemma near_symm {a b : ℕ} (h : near a b) : near b a := ⟨h.2, h.1⟩

variable {d1 d2 d3 : ℕ}

/-- 26-connectivity adjacency: two distinct voxels whose coordinates differ by
at most one in every axis (all face, edge and corner neighbours).  This is the
neighbourhood induced by the structuring element `np.ones(shape=(3, 3, 3))`
passed to `scipy.ndimage.label` at lines 116-120 of the script. -/
def adj26 (p q : Pos d1 d2 d3) : Prop :=
  p ≠ q ∧ near p.1.val q.1.val ∧ near p.2.1.val q.2.1.val ∧ near p.2.2.val q.2.2.val

instance (p q : Pos d1 d2 d3) : Decidable (adj26 p q) :=
  inferInstanceAs (Decidable (_ ∧ _ ∧ _ ∧ _))

lemma adj26_symm {p q : Pos d1 d2 d3} (h : adj26 p q) : adj26 q p :=
  ⟨h.1.symm, near_symm h.2.1, near_symm h.2.2.1, near_symm h.2.2.2⟩

/-- One step of foreground connectivity: both voxels are foreground in the
binary mask and 26-adjacent. -/
def stepRel (mask : Pos d1 d2 d3 → Bool) (p q : Pos d1 d2 d3) : Prop :=
  mask p = true ∧ mask q = true ∧ adj26 p q

instance (mask : Pos d1 d2 d3 → Bool) (p q : Pos d1 d2 d3) :
    Decidable (stepRel mask p q) :=
  inferInstanceAs (Decidable (_ ∧ _ ∧ _))

lemma stepRel_symm (mask : Pos d1 d2 d3 → Bool) : Symmetric (stepRel mask) :=
  fun _ _ h => ⟨h.2.1, h.1, adj26_symm h.2.2⟩

lemma reflTransGen_stepRel_symm {mask : Pos d1 d2 d3 → Bool} {p q : Pos d1 d2 d3}
    (h : Relation.ReflTransGen (stepRel mask) p q) :
    Relation.ReflTransGen (stepRel mask) q p :=
  Relation.ReflTransGen.symmetric (stepRel_symm mask) h

lemma mask_of_reflTransGen {mask : Pos d1 d2 d3 → Bool} {p q : Pos d1 d2 d3}
    (hp : mask p = true) (h : Relation.ReflTransGen (stepRel mask) p q) :
    mask q = true := by
  induction h with
  | refl => exact hp
  | tail _ hstep _ => exact hstep.2.1

/-- One round of neighbourhood expansion of a voxel set inside the mask. -/
def expandOnce (mask : Pos d1 d2 d3 → Bool) (S : Finset (Pos d1 d2 d3)) :
    Finset (Pos d1 d2 d3) :=
  S ∪ Finset.univ.filter (fun q => ∃ p ∈ S, stepRel mask p q)

/-- The connected component of a voxel: the 26-connectivity flood fill of `{p}`
saturated over the whole (finite) grid. -/
def component (mask : Pos d1 d2 d3 → Bool) (p : Pos d1 d2 d3) :
    Finset (Pos d1 d2 d3) :=
  (expandOnce mask)^[Fintype.card (Pos d1 d2 d3)] {p}

lemma subset_expandOnce (mask : Pos d1 d2 d3 → Bool) (S : Finset (Pos d1 d2 d3)) :
    S ⊆ expandOnce mask S :=
  Finset.subset_union_left

lemma iterate_expand_succ_subset (mask : Pos d1 d2 d3 → Bool)
    (S : Finset (Pos d1 d2 d3)) (n : ℕ) :
    (expandOnce mask)^[n] S ⊆ (expandOnce mask)^[n + 1] S := by
  rw [Function.iterate_succ_apply']
  exact subset_expandOnce mask _

lemma iterate_expand_card_ge (mask : Pos d1 d2 d3 → Bool)
    (S : Finset (Pos d1 d2 d3)) (n : ℕ)
    (h : ∀ k < n, (expandOnce mask)^[k + 1] S ≠ (expandOnce mask)^[k] S) :
    S.card + n ≤ ((expandOnce mask)^[n] S).card := by
  induction n with
  | zero => simp
  | succ n ih =>
    have h1 : ∀ k < n, (expandOnce mask)^[k + 1] S ≠ (expandOnce mask)^[k] S :=
      fun k hk => h k (hk.trans (Nat.lt_succ_self n))
    have h2 := ih h1
    have hne : (expandOnce mask)^[n] S ≠ (expandOnce mask)^[n + 1] S :=
      fun he => h n (Nat.lt_succ_self n) he.symm
    have hss := (iterate_expand_succ_subset mask S n).ssubset_of_ne hne
    have := Finset.card_lt_card hss
    omega

lemma exists_iterate_expand_fixed (mask : Pos d1 d2 d3 → Bool)
    (S : Finset (Pos d1 d2 d3)) :
    ∃ k ≤ Fintype.card (Pos d1 d2 d3),
      (expandOnce mask)^[k + 1] S = (expandOnce mask)^[k] S := by
  by_contra hcon
  push_neg at hcon
  have hall : ∀ k < Fintype.card (Pos d1 d2 d3) + 1,
      (expandOnce mask)^[k + 1] S ≠ (expandOnce mask)^[k] S := by
    intro k hk
    exact hcon k (Nat.lt_succ_iff.mp hk)
  have h1 := iterate_expand_card_ge mask S (Fintype.card (Pos d1 d2 d3) + 1) hall
  have h2 : ((expandOnce mask)^[Fintype.card (Pos d1 d2 d3) + 1] S).card
      ≤ Fintype.card (Pos d1 d2 d3) := Finset.card_le_univ _
  omega

lemma iterate_fixed_after {α : Type} (f : α → α) (x : α) (k : ℕ)
    (h : f (f^[k] x) = f^[k] x) :
    ∀ n, k ≤ n → f^[n] x = f^[k] x := by
  intro n hkn
  induction n with
  | zero =>
    have : k = 0 := Nat.le_zero.mp hkn
    rw [this]
  | succ n ih =>
    rcases Nat.lt_or_ge k (n + 1) with hlt | hge
    · have hkle : k ≤ n := Nat.lt_succ_iff.mp hlt
      rw [Function.iterate_succ_apply', ih hkle, h]
    · have : k = n + 1 := Nat.le_antisymm hkn hge
      rw [this]

lemma expandOnce_component (mask : Pos d1 d2 d3 → Bool) (p : Pos d1 d2 d3) :
    expandOnce mask (component mask p) = component mask p := by
  obtain ⟨k, hk, hfix⟩ := exists_iterate_expand_fixed mask ({p} : Finset (Pos d1 d2 d3))
  have hfix' : expandOnce mask ((expandOnce mask)^[k] {p}) = (expandOnce mask)^[k] {p} := by
    have h := Function.iterate_succ_apply' (expandOnce mask) k ({p} : Finset (Pos d1 d2 d3))
    rw [← h]
    exact hfix
  have hcomp : component mask p = (expandOnce mask)^[k] {p} :=
    iterate_fixed_after (expandOnce mask) {p} k hfix' (Fintype.card (Pos d1 d2 d3)) hk
  rw [hcomp]
  exact hfix'

lemma mem_of_iterate_expand {mask : Pos d1 d2 d3 → Bool} {S : Finset (Pos d1 d2 d3)}
    {q : Pos d1 d2 d3} :
    ∀ {n : ℕ}, q ∈ (expandOnce mask)^[n] S →
      ∃ p ∈ S, Relation.ReflTransGen (stepRel mask) p q := by
  intro n
  induction n generalizing q with
  | zero => exact fun h => ⟨q, h, Relation.ReflTransGen.refl⟩
  | succ n ih =>
    intro h
    rw [Function.iterate_succ_apply'] at h
    rcases Finset.mem_union.mp h with h | h
    · exact ih h
    · obtain ⟨-, r, hr, hstep⟩ := Finset.mem_filter.mp h
      obtain ⟨p, hp, hpath⟩ := ih hr
      exact ⟨p, hp, hpath.tail hstep⟩

lemma mem_component_of_reflTransGen {mask : Pos d1 d2 d3 → Bool}
    {p q : Pos d1 d2 d3} (h : Relation.ReflTransGen (stepRel mask) p q) :
    q ∈ component mask p := by
  induction h with
  | refl =>
    have hsub : ({p} : Finset (Pos d1 d2 d3)) ⊆ component mask p := by
      have : ∀ n, ({p} : Finset (Pos d1 d2 d3)) ⊆ (expandOnce mask)^[n] {p} := by
        intro n
        induction n with
        | zero => simp
        | succ n ih => exact ih.trans (iterate_expand_succ_subset mask _ n)
      exact this _
    exact hsub (Finset.mem_singleton_self p)
  | tail _ hstep ih =>
    rw [← expandOnce_component mask p]
    apply Finset.mem_union_right
    rw [Finset.mem_filter]
    exact ⟨Finset.mem_univ _, _, ih, hstep⟩

/-- Membership in `component` coincides with 26-connectivity reachability
inside the mask. -/
lemma mem_component_iff {mask : Pos d1 d2 d3 → Bool} {p q : Pos d1 d2 d3} :
    q ∈ component mask p ↔ Relation.ReflTransGen (stepRel mask) p q := by
  constructor
  · intro h
    obtain ⟨r, hr, hpath⟩ := mem_of_iterate_expand h
    rw [Finset.mem_singleton] at hr
    rw [← hr]
    exact hpath
  · exact mem_component_of_reflTransGen

lemma component_eq_iff {mask : Pos d1 d2 d3 → Bool} {p q : Pos d1 d2 d3} :
    component mask p = component mask q ↔
      Relation.ReflTransGen (stepRel mask) p q := by
  constructor
  · intro h
    have : q ∈ component mask p := by
      rw [h]
      exact mem_component_iff.mpr Relation.ReflTransGen.refl
    exact mem_component_iff.mp this
  · intro h
    ext x
    rw [mem_component_iff, mem_component_iff]
    constructor
    · intro hx
      exact (reflTransGen_stepRel_symm h).trans hx
    · intro hx
      exact h.trans hx

/-- Raster-order enumeration of all voxel positions of the grid. -/
def allPos (d1 d2 d3 : ℕ) : List (Pos d1 d2 d3) :=
  (List.finRange d1).flatMap (fun i =>
    (List.finRange d2).flatMap (fun j =>
      (List.finRange d3).map (fun k => (i, j, k))))

lemma mem_allPos (p : Pos d1 d2 d3) : p ∈ allPos d1 d2 d3 := by
  unfold allPos
  rw [List.mem_flatMap]
  refine ⟨p.1, List.mem_finRange _, ?_⟩
  rw [List.mem_flatMap]
  refine ⟨p.2.1, List.mem_finRange _, ?_⟩
  rw [List.mem_map]
  exact ⟨p.2.2, List.mem_finRange _, rfl⟩

/-- One step of the sequential flood-fill labeling scan: when the current voxel
is foreground and still unlabeled, its whole connected component receives the
next fresh instance ID. -/
def scanStep (mask : Pos d1 d2 d3 → Bool) (st : (Pos d1 d2 d3 → ℕ) × ℕ)
    (p : Pos d1 d2 d3) : (Pos d1 d2 d3 → ℕ) × ℕ :=
  if mask p = true ∧ st.1 p = 0 then
    (fun q => if q ∈ component mask p then st.2 + 1 else st.1 q, st.2 + 1)
  else st

/-- Connected-component instance extraction of a binary mask, embedding the
calls `label(..., structure=np.ones(shape=(3, 3, 3)))` at lines 116-120 of
`F_evaluate_quantitative.py`: `scipy.ndimage.label` with an all-ones 3x3x3
structuring element labels the 26-connectivity connected components of the
foreground, assigning IDs `1..n` in a deterministic scan order, with `0` kept
for background, and returns the labeled array together with the component
count `n`. -/
def extractInstances (mask : Pos d1 d2 d3 → Bool) : (Pos d1 d2 d3 → ℕ) × ℕ :=
  (allPos d1 d2 d3).foldl (scanStep mask) (fun _ => 0, 0)

/-- Declarative number of 26-connectivity connected components of the
foreground of a mask: the number of distinct component sets of foreground
voxels. -/
def ncomponents (mask : Pos d1 d2 d3 → Bool) : ℕ :=
  ((Finset.univ.filter (fun p => mask p = true)).image (component mask)).card

/-- Invariant of the flood-fill scan after the voxels in `seen` have been
processed: a voxel is labeled iff its component was reached from `seen`,
labels agree exactly on connected voxels, labels range over `1..count`, every
label in that range occurs, and the count equals the number of distinct
components met so far. -/
structure ScanInv (mask : Pos d1 d2 d3 → Bool) (seen : List (Pos d1 d2 d3))
    (st : (Pos d1 d2 d3 → ℕ) × ℕ) : Prop where
  labeled_iff : ∀ q, st.1 q ≠ 0 ↔
    ∃ p ∈ seen, mask p = true ∧ Relation.ReflTransGen (stepRel mask) p q
  classes : ∀ q r, st.1 q ≠ 0 → st.1 r ≠ 0 →
    (st.1 q = st.1 r ↔ Relation.ReflTransGen (stepRel mask) q r)
  le_count : ∀ q, st.1 q ≤ st.2
  surj : ∀ i, 1 ≤ i → i ≤ st.2 → ∃ q, st.1 q = i
  count_eq : st.2 =
    ((seen.toFinset.filter (fun p => mask p = true)).image (component mask)).card

lemma ScanInv.mask_of_labeled {mask : Pos d1 d2 d3 → Bool}
    {seen : List (Pos d1 d2 d3)} {st : (Pos d1 d2 d3 → ℕ) × ℕ}
    (h : ScanInv mask seen st) {q : Pos d1 d2 d3} (hq : st.1 q ≠ 0) :
    mask q = true := by
  obtain ⟨p, _, hp, hpath⟩ := (h.labeled_iff q).mp hq
  exact mask_of_reflTransGen hp hpath

lemma toFinset_append_singleton {α : Type} [DecidableEq α] (seen : List α) (p : α) :
    (seen ++ [p]).toFinset = insert p seen.toFinset := by
  ext x
  simp [or_comm]

lemma scanInv_nil (mask : Pos d1 d2 d3 → Bool) :
    ScanInv mask [] (fun _ => 0, 0) := by
  refine ⟨?_, ?_, ?_, ?_, ?_⟩
  · intro q
    simp
  · intro q r hq
    simp at hq
  · intro q
    exact Nat.le_refl 0
  · intro i h1 h2
    omega
  · simp

lemma scanInv_step (mask : Pos d1 d2 d3 → Bool) (seen : List (Pos d1 d2 d3))
    (st : (Pos d1 d2 d3 → ℕ) × ℕ) (p : Pos d1 d2 d3) (h : ScanInv mask seen st) :
    ScanInv mask (seen ++ [p]) (scanStep mask st p) := by
  by_cases hc : mask p = true ∧ st.1 p = 0
  · -- p opens a fresh component
    have hnot : ∀ r ∈ seen, mask r = true → ¬ Relation.ReflTransGen (stepRel mask) r p := by
      intro r hr hmr hpath
      exact ((h.labeled_iff p).mpr ⟨r, hr, hmr, hpath⟩) hc.2
    have hcomplab : ∀ q ∈ component mask p, st.1 q = 0 := by
      intro q hq
      by_contra hlab
      obtain ⟨r, hr, hmr, hpath⟩ := (h.labeled_iff q).mp hlab
      exact hnot r hr hmr (hpath.trans (reflTransGen_stepRel_symm (mem_component_iff.mp hq)))
    rw [scanStep, if_pos hc]
    refine ⟨?_, ?_, ?_, ?_, ?_⟩
    · intro q
      by_cases hq : q ∈ component mask p
      · simp only [hq, if_pos]
        constructor
        · intro _
          exact ⟨p, by simp, hc.1, mem_component_iff.mp hq⟩
        · intro _
          exact Nat.succ_ne_zero st.2
      · simp only [hq, if_neg, if_false]
        rw [h.labeled_iff q]
        constructor
        · rintro ⟨r, hr, hmr, hpath⟩
          exact ⟨r, by simp [hr], hmr, hpath⟩
        · rintro ⟨r, hr, hmr, hpath⟩
          rw [List.mem_append, List.mem_singleton] at hr
          rcases hr with hr | hr
          · exact ⟨r, hr, hmr, hpath⟩
          · subst hr
            exact (hq (mem_component_of_reflTransGen hpath)).elim
    · intro q r hq hr
      by_cases hqc : q ∈ component mask p <;> by_cases hrc : r ∈ component mask p
      · simp only [hqc, hrc, if_pos]
        constructor
        · intro _
          exact (reflTransGen_stepRel_symm (mem_component_iff.mp hqc)).trans
            (mem_component_iff.mp hrc)
        · intro _
          trivial
      · simp only [hqc, hrc, if_pos, if_neg, if_false] at hq hr ⊢
        constructor
        · intro heq
          have := h.le_count r
          omega
        · intro hqr
          exact (hrc (mem_component_of_reflTransGen
            ((mem_component_iff.mp hqc).trans hqr))).elim
      · simp only [hqc, hrc, if_pos, if_neg, if_false] at hq hr ⊢
        constructor
        · intro heq
          have := h.le_count q
          omega
        · intro hqr
          exact (hqc (mem_component_of_reflTransGen
            ((mem_component_iff.mp hrc).trans (reflTransGen_stepRel_symm hqr)))).elim
      · simp only [hqc, hrc, if_neg, if_false] at hq hr ⊢
        exact h.classes q r hq hr
    · intro q
      by_cases hq : q ∈ component mask p
      · simp [hq]
      · simp only [hq, if_neg, if_false]
        exact (h.le_count q).trans (Nat.le_succ st.2)
    · intro i h1 h2
      rcases Nat.lt_or_ge i (st.2 + 1) with hlt | hge
      · obtain ⟨q, hq⟩ := h.surj i h1 (Nat.lt_succ_iff.mp hlt)
        refine ⟨q, ?_⟩
        have hqc : q ∉ component mask p := by
          intro hmem
          rw [hcomplab q hmem] at hq
          omega
        simp only [hqc, if_neg, if_false]
        exact hq
      · have : i = st.2 + 1 := by omega
        subst this
        refine ⟨p, ?_⟩
        have hpc : p ∈ component mask p := mem_component_iff.mpr Relation.ReflTransGen.refl
        simp [hpc]
    · rw [toFinset_append_singleton, Finset.filter_insert, if_pos hc.1,
        Finset.image_insert]
      have hnotmem : component mask p ∉
          ((seen.toFinset.filter (fun r => mask r = true)).image (component mask)) := by
        intro hmem
        rw [Finset.mem_image] at hmem
        obtain ⟨r, hr, hcomp⟩ := hmem
        rw [Finset.mem_filter, List.mem_toFinset] at hr
        exact hnot r hr.1 hr.2 (component_eq_iff.mp hcomp)
      rw [Finset.card_insert_of_not_mem hnotmem, ← h.count_eq]
  · -- p is background or already labeled: the state is unchanged
    rw [scanStep, if_neg hc]
    have hlab : mask p = true → st.1 p ≠ 0 := by
      intro hm hz
      exact hc ⟨hm, hz⟩
    refine ⟨?_, h.classes, h.le_count, h.surj, ?_⟩
    · intro q
      rw [h.labeled_iff q]
      constructor
      · rintro ⟨r, hr, hmr, hpath⟩
        exact ⟨r, by simp [hr], hmr, hpath⟩
      · rintro ⟨r, hr, hmr, hpath⟩
        rw [List.mem_append, List.mem_singleton] at hr
        rcases hr with hr | hr
        · exact ⟨r, hr, hmr, hpath⟩
        · subst hr
          obtain ⟨r', hr', hmr', hpath'⟩ := (h.labeled_iff r).mp (hlab hmr)
          exact ⟨r', hr', hmr', hpath'.trans hpath⟩
    · rw [toFinset_append_singleton, Finset.filter_insert]
      by_cases hm : mask p = true
      · rw [if_pos hm, Finset.image_insert]
        have hmem : component mask p ∈
            ((seen.toFinset.filter (fun r => mask r = true)).image (component mask)) := by
          obtain ⟨r, hr, hmr, hpath⟩ := (h.labeled_iff p).mp (hlab hm)
          rw [Finset.mem_image]
          refine ⟨r, ?_, component_eq_iff.mpr hpath⟩
          rw [Finset.mem_filter, List.mem_toFinset]
          exact ⟨hr, hmr⟩
        rw [Finset.insert_eq_self.mpr hmem, ← h.count_eq]
      · rw [if_neg hm, ← h.count_eq]

lemma scanInv_foldl (mask : Pos d1 d2 d3 → Bool) (l : List (Pos d1 d2 d3)) :
    ∀ (seen : List (Pos d1 d2 d3)) (st : (Pos d1 d2 d3 → ℕ) × ℕ),
      ScanInv mask seen st → ScanInv mask (seen ++ l) (l.foldl (scanStep mask) st) := by
  induction l with
  | nil =>
    intro seen st h
    simpa using h
  | cons p t ih =>
    intro seen st h
    have h1 := scanInv_step mask seen st p h
    have h2 := ih (seen ++ [p]) (scanStep mask st p) h1
    simpa [List.append_assoc] using h2

lemma scanInv_extract (mask : Pos d1 d2 d3 → Bool) :
    ScanInv mask (allPos d1 d2 d3) (extractInstances mask) := by
  have h := scanInv_foldl mask (allPos d1 d2 d3) [] (fun _ => 0, 0) (scanInv_nil mask)
  simpa [extractInstances] using h

/-- A voxel receives a non-zero instance ID exactly when it is foreground. -/
lemma extract_ne_zero_iff (mask : Pos d1 d2 d3 → Bool) (q : Pos d1 d2 d3) :
    (extractInstances mask).1 q ≠ 0 ↔ mask q = true := by
  constructor
  · exact fun hq => (scanInv_extract mask).mask_of_labeled hq
  · intro hm
    exact ((scanInv_extract mask).labeled_iff q).mpr
      ⟨q, mem_allPos q, hm, Relation.ReflTransGen.refl⟩

lemma extract_le_count (mask : Pos d1 d2 d3 → Bool) (q : Pos d1 d2 d3) :
    (extractInstances mask).1 q ≤ (extractInstances mask).2 :=
  (scanInv_extract mask).le_count q

lemma extract_surj (mask : Pos d1 d2 d3 → Bool) (i : ℕ) (h1 : 1 ≤ i)
    (h2 : i ≤ (extractInstances mask).2) :
    ∃ q, (extractInstances mask).1 q = i :=
  (scanInv_extract mask).surj i h1 h2

lemma extract_classes (mask : Pos d1 d2 d3 → Bool) (q r : Pos d1 d2 d3)
    (hq : (extractInstances mask).1 q ≠ 0) (hr : (extractInstances mask).1 r ≠ 0) :
    ((extractInstances mask).1 q = (extractInstances mask).1 r ↔
      Relation.ReflTransGen (stepRel mask) q r) :=
  (scanInv_extract mask).classes q r hq hr

/-- The instance count returned by the extractor is the number of
26-connectivity connected components of the mask's foreground. -/
lemma extract_count_eq_ncomponents (mask : Pos d1 d2 d3 → Bool) :
    (extractInstances mask).2 = ncomponents mask := by
  have h := (scanInv_extract mask).count_eq
  have hall : (allPos d1 d2 d3).toFinset = (Finset.univ : Finset (Pos d1 d2 d3)) := by
    ext x
    simp [mem_allPos]
  rw [h, hall]
  rfl

/-- Binarization `(vol == lesion_class).astype(int)` of a volume at a class
label (lines 116 and 119). -/
def binarize (vol : Vol d1 d2 d3) (lesion_class : ℤ) : Pos d1 d2 d3 → Bool :=
  fun p => vol p == lesion_class

/-- Instance map of the connected lesions of class `lesion_class` in a volume
(first return value of `label` at lines 116-120). -/
def instMap (vol : Vol d1 d2 d3) (lesion_class : ℤ) : Pos d1 d2 d3 → ℕ :=
  (extractInstances (binarize vol lesion_class)).1

/-- Number of connected lesions of class `lesion_class` in a volume (second
return value of `label` at lines 116-120). -/
def instCount (vol : Vol d1 d2 d3) (lesion_class : ℤ) : ℕ :=
  (extractInstances (binarize vol lesion_class)).2

/-- ID-reconciliation loop of lines 122-125:

    new_predicted_lesions = np.copy(predicted_lesions)
    for pred_lesion_id in range(1, n_predicted_lesions + 1):
        new_pred_lesion_id = pred_lesion_id + n_gt_lesions
        new_predicted_lesions[predicted_lesions == pred_lesion_id] = new_pred_lesion_id

The fold state is the array `new_predicted_lesions`, initialised to a copy of
`predicted_lesions`; each iteration overwrites the voxels whose ORIGINAL
predicted ID equals `pred_lesion_id`. -/
def reconcileStep (predicted_lesions : Pos d1 d2 d3 → ℕ) (n_gt_lesions : ℕ)
    (new_predicted_lesions : Pos d1 d2 d3 → ℕ) (pred_lesion_id : ℕ) :
    Pos d1 d2 d3 → ℕ :=
  fun q => if predicted_lesions q = pred_lesion_id
    then pred_lesion_id + n_gt_lesions
    else new_predicted_lesions q

def reconcile (predicted_lesions : Pos d1 d2 d3 → ℕ)
    (n_predicted_lesions n_gt_lesions : ℕ) : Pos d1 d2 d3 → ℕ :=
  (List.range' 1 n_predicted_lesions).foldl
    (reconcileStep predicted_lesions n_gt_lesions)
    predicted_lesions

lemma reconcileStep_apply (predicted_lesions : Pos d1 d2 d3 → ℕ) (n_gt_lesions : ℕ)
    (new_predicted_lesions : Pos d1 d2 d3 → ℕ) (pred_lesion_id : ℕ) (q : Pos d1 d2 d3) :
    reconcileStep predicted_lesions n_gt_lesions new_predicted_lesions pred_lesion_id q =
      if predicted_lesions q = pred_lesion_id
        then pred_lesion_id + n_gt_lesions
        else new_predicted_lesions q := rfl

/-- Reconciled predicted instance map (`new_predicted_lesions`). -/
def newPredMap (labels preds : Vol d1 d2 d3) (lesion_class : ℤ) :
    Pos d1 d2 d3 → ℕ :=
  reconcile (instMap preds lesion_class) (instCount preds lesion_class)
    (instCount labels lesion_class)

/-- Set `tp_gt` of line 128: ground-truth instance IDs present where both the
ground-truth and the (original) predicted instance maps are positive. -/
def tpGtSet (labels preds : Vol d1 d2 d3) (lesion_class : ℤ) : Finset ℕ :=
  (Finset.univ.filter (fun p =>
    0 < instMap labels lesion_class p ∧ 0 < instMap preds lesion_class p)).image
    (instMap labels lesion_class)

/-- Set `tp_pred` of line 129: reconciled predicted instance IDs present where
both the ground-truth and the reconciled predicted maps are positive. -/
def tpPredSet (labels preds : Vol d1 d2 d3) (lesion_class : ℤ) : Finset ℕ :=
  (Finset.univ.filter (fun p =>
    0 < instMap labels lesion_class p ∧ 0 < newPredMap labels preds lesion_class p)).image
    (newPredMap labels preds lesion_class)

/-- Set `fp` of line 130: reconciled predicted IDs present where the
ground-truth map is zero, minus `tp_pred`. -/
def fpSet (labels preds : Vol d1 d2 d3) (lesion_class : ℤ) : Finset ℕ :=
  ((Finset.univ.filter (fun p =>
    instMap labels lesion_class p = 0 ∧ 0 < newPredMap labels preds lesion_class p)).image
    (newPredMap labels preds lesion_class)) \ tpPredSet labels preds lesion_class

/-- Set `fn` of line 131: ground-truth IDs present where the reconciled
predicted map is zero, minus `tp_gt`. -/
def fnSet (labels preds : Vol d1 d2 d3) (lesion_class : ℤ) : Finset ℕ :=
  ((Finset.univ.filter (fun p =>
    0 < instMap labels lesion_class p ∧ newPredMap labels preds lesion_class p = 0)).image
    (instMap labels lesion_class)) \ tpGtSet labels preds lesion_class

/-- The function `compute_lesion_level_metrics` (lines 104-140): returns
`(n_gt_lesions, n_predicted_lesions, tp, fp, fn)` where `tp = len(tp_gt)`,
`fp = len(fp)` and `fn = len(fn)`. -/
def computeLesionLevelMetrics (labels preds : Vol d1 d2 d3) (lesion_class : ℤ) :
    ℕ × ℕ × ℕ × ℕ × ℕ :=
  (instCount labels lesion_class, instCount preds lesion_class,
    (tpGtSet labels preds lesion_class).card,
    (fpSet labels preds lesion_class).card,
    (fnSet labels preds lesion_class).card)

/-- Conditions of the two `assert` statements at lines 137-138:
`len(tp_pred) + fp == n_predicted_lesions` and
`len(tp_gt) + fn == n_gt_lesions`. -/
def assertionsHold (labels preds : Vol d1 d2 d3) (lesion_class : ℤ) : Prop :=
  (tpPredSet labels preds lesion_class).card + (fpSet labels preds lesion_class).card =
      instCount preds lesion_class ∧
    (tpGtSet labels preds lesion_class).card + (fnSet labels preds lesion_class).card =
      instCount labels lesion_class

lemma instMap_le (vol : Vol d1 d2 d3) (c : ℤ) (p : Pos d1 d2 d3) :
    instMap vol c p ≤ instCount vol c :=
  extract_le_count _ p

lemma instMap_ne_zero_iff (vol : Vol d1 d2 d3) (c : ℤ) (p : Pos d1 d2 d3) :
    instMap vol c p ≠ 0 ↔ binarize vol c p = true :=
  extract_ne_zero_iff _ p

lemma instMap_surj (vol : Vol d1 d2 d3) (c : ℤ) (i : ℕ) (h1 : 1 ≤ i)
    (h2 : i ≤ instCount vol c) : ∃ q, instMap vol c q = i :=
  extract_surj _ i h1 h2

lemma reconcile_foldl_closed (predicted_lesions : Pos d1 d2 d3 → ℕ)
    (n_gt_lesions : ℕ) (k : ℕ) (q : Pos d1 d2 d3) :
    ((List.range' 1 k).foldl (reconcileStep predicted_lesions n_gt_lesions)
      predicted_lesions) q =
    if 1 ≤ predicted_lesions q ∧ predicted_lesions q ≤ k
      then predicted_lesions q + n_gt_lesions
      else predicted_lesions q := by
  induction k with
  | zero =>
    have h0 : ¬ (1 ≤ predicted_lesions q ∧ predicted_lesions q ≤ 0) := by omega
    rw [if_neg h0]
    rfl
  | succ k ih =>
    have hconcat : List.range' 1 (k + 1) = List.range' 1 k ++ [1 + k] := by
      have h := @List.range'_concat 1 1 k
      simpa using h
    rw [hconcat, List.foldl_append, List.foldl_cons, List.foldl_nil,
      reconcileStep_apply, ih]
    by_cases hq : predicted_lesions q = 1 + k
    · have hcond : 1 ≤ predicted_lesions q ∧ predicted_lesions q ≤ k + 1 := by omega
      rw [if_pos hq, if_pos hcond]
      omega
    · rw [if_neg hq]
      by_cases hin : 1 ≤ predicted_lesions q ∧ predicted_lesions q ≤ k
      · have hcond : 1 ≤ predicted_lesions q ∧ predicted_lesions q ≤ k + 1 := by omega
        rw [if_pos hin, if_pos hcond]
      · have hcond : ¬ (1 ≤ predicted_lesions q ∧ predicted_lesions q ≤ k + 1) := by omega
        rw [if_neg hin, if_neg hcond]

/-- Closed form of the ID-reconciliation loop: background stays `0`, every
instance ID is shifted by `n_gt_lesions`. -/
lemma reconcile_eq (predicted_lesions : Pos d1 d2 d3 → ℕ)
    (n_predicted_lesions n_gt_lesions : ℕ)
    (hbound : ∀ p, predicted_lesions p ≤ n_predicted_lesions) (q : Pos d1 d2 d3) :
    reconcile predicted_lesions n_predicted_lesions n_gt_lesions q =
      if predicted_lesions q = 0 then 0
        else predicted_lesions q + n_gt_lesions := by
  rw [reconcile, reconcile_foldl_closed]
  by_cases hq : predicted_lesions q = 0
  · rw [if_neg (by omega), if_pos hq, hq]
  · rw [if_pos ⟨by omega, hbound q⟩, if_neg hq]

lemma newPredMap_eq (labels preds : Vol d1 d2 d3) (c : ℤ) (q : Pos d1 d2 d3) :
    newPredMap labels preds c q =
      if instMap preds c q = 0 then 0 else instMap preds c q + instCount labels c :=
  reconcile_eq _ _ _ (fun p => instMap_le preds c p) q

lemma newPredMap_eq_zero_iff (labels preds : Vol d1 d2 d3) (c : ℤ) (q : Pos d1 d2 d3) :
    (newPredMap labels preds c q = 0 ↔ instMap preds c q = 0) := by
  rw [newPredMap_eq]
  by_cases hq : instMap preds c q = 0
  · simp [hq]
  · rw [if_neg hq]
    constructor
    · intro h
      omega
    · intro h
      exact (hq h).elim

lemma newPredMap_pos_iff (labels preds : Vol d1 d2 d3) (c : ℤ) (q : Pos d1 d2 d3) :
    (0 < newPredMap labels preds c q ↔ 0 < instMap preds c q) := by
  have h := newPredMap_eq_zero_iff labels preds c q
  omega

/-- The IDs attained by an instance map on its support are exactly `1..count`. -/
lemma image_instMap_support (vol : Vol d1 d2 d3) (c : ℤ) :
    (Finset.univ.filter (fun p => 0 < instMap vol c p)).image (instMap vol c) =
      Finset.Icc 1 (instCount vol c) := by
  ext i
  rw [Finset.mem_image, Finset.mem_Icc]
  constructor
  · rintro ⟨p, hp, hip⟩
    rw [Finset.mem_filter] at hp
    have := instMap_le vol c p
    omega
  · rintro ⟨h1, h2⟩
    obtain ⟨q, hq⟩ := instMap_surj vol c i h1 h2
    refine ⟨q, ?_, hq⟩
    rw [Finset.mem_filter]
    exact ⟨Finset.mem_univ q, by omega⟩

/-- The IDs attained by the reconciled predicted map on its support are
exactly `n_gt + 1 .. n_gt + n_pred`. -/
lemma image_newPredMap_support (labels preds : Vol d1 d2 d3) (c : ℤ) :
    (Finset.univ.filter (fun p => 0 < newPredMap labels preds c p)).image
        (newPredMap labels preds c) =
      Finset.Icc (instCount labels c + 1) (instCount labels c + instCount preds c) := by
  ext i
  rw [Finset.mem_image, Finset.mem_Icc]
  constructor
  · rintro ⟨p, hp, hip⟩
    rw [Finset.mem_filter] at hp
    have h1 := newPredMap_eq labels preds c p
    have h2 := instMap_le preds c p
    have h3 : ¬ instMap preds c p = 0 := by
      have := (newPredMap_eq_zero_iff labels preds c p)
      omega
    rw [if_neg h3] at h1
    omega
  · rintro ⟨h1, h2⟩
    obtain ⟨q, hq⟩ := instMap_surj preds c (i - instCount labels c) (by omega) (by omega)
    have hnew : newPredMap labels preds c q = i := by
      rw [newPredMap_eq, if_neg (by omega), hq]
      omega
    refine ⟨q, ?_, hnew⟩
    rw [Finset.mem_filter]
    refine ⟨Finset.mem_univ q, ?_⟩
    omega

lemma tpPredSet_card_add_fpSet_card (labels preds : Vol d1 d2 d3) (c : ℤ) :
    (tpPredSet labels preds c).card + (fpSet labels preds c).card =
      instCount preds c := by
  have hdisj : Disjoint (tpPredSet labels preds c) (fpSet labels preds c) :=
    Finset.disjoint_sdiff
  have hunion : tpPredSet labels preds c ∪ fpSet labels preds c =
      (Finset.univ.filter (fun p => 0 < newPredMap labels preds c p)).image
        (newPredMap labels preds c) := by
    rw [fpSet, Finset.union_sdiff_self_eq_union, tpPredSet, ← Finset.image_union,
      ← Finset.filter_or]
    congr 1
    ext p
    simp only [Finset.mem_filter, Finset.mem_univ, true_and]
    omega
  have hcard := Finset.card_union_of_disjoint hdisj
  rw [hunion, image_newPredMap_support, Nat.card_Icc] at hcard
  omega

lemma tpGtSet_card_add_fnSet_card (labels preds : Vol d1 d2 d3) (c : ℤ) :
    (tpGtSet labels preds c).card + (fnSet labels preds c).card =
      instCount labels c := by
  have hdisj : Disjoint (tpGtSet labels preds c) (fnSet labels preds c) :=
    Finset.disjoint_sdiff
  have hunion : tpGtSet labels preds c ∪ fnSet labels preds c =
      (Finset.univ.filter (fun p => 0 < instMap labels c p)).image
        (instMap labels c) := by
    rw [fnSet, Finset.union_sdiff_self_eq_union, tpGtSet, ← Finset.image_union,
      ← Finset.filter_or]
    congr 1
    ext p
    simp only [Finset.mem_filter, Finset.mem_univ, true_and]
    have h := newPredMap_eq_zero_iff labels preds c p
    omega
  have hcard := Finset.card_union_of_disjoint hdisj
  rw [hunion, image_instMap_support, Nat.card_Icc] at hcard
  omega

lemma filter_tpPred_eq_filter_tpGt (labels preds : Vol d1 d2 d3) (c : ℤ) :
    (Finset.univ.filter (fun p =>
        0 < instMap labels c p ∧ 0 < newPredMap labels preds c p)) =
      (Finset.univ.filter (fun p =>
        0 < instMap labels c p ∧ 0 < instMap preds c p)) := by
  ext p
  simp only [Finset.mem_filter, Finset.mem_univ, true_and]
  have h := newPredMap_eq_zero_iff labels preds c p
  omega

lemma tpGtSet_empty_iff_tpPredSet_empty (labels preds : Vol d1 d2 d3) (c : ℤ) :
    (tpGtSet labels preds c = ∅ ↔ tpPredSet labels preds c = ∅) := by
  rw [tpGtSet, tpPredSet, Finset.image_eq_empty, Finset.image_eq_empty,
    filter_tpPred_eq_filter_tpGt]

/-- The `tp_gt` set characterized at the instance-ID level: exactly the
ground-truth instance IDs sharing at least one voxel with predicted
foreground. -/
lemma tpGtSet_eq_overlap_ids (labels preds : Vol d1 d2 d3) (c : ℤ) :
    tpGtSet labels preds c =
      (Finset.Icc 1 (instCount labels c)).filter
        (fun i => ∃ p, instMap labels c p = i ∧ instMap preds c p ≠ 0) := by
  ext i
  rw [tpGtSet, Finset.mem_image, Finset.mem_filter, Finset.mem_Icc]
  constructor
  · rintro ⟨p, hp, hip⟩
    rw [Finset.mem_filter] at hp
    have hle := instMap_le labels c p
    obtain ⟨-, h1, h2⟩ := hp
    exact ⟨⟨by omega, by omega⟩, p, hip, by omega⟩
  · rintro ⟨⟨h1, h2⟩, p, hip, hpred⟩
    refine ⟨p, ?_, hip⟩
    rw [Finset.mem_filter]
    exact ⟨Finset.mem_univ p, by omega, by omega⟩

/-- The `fp` set characterized at the instance-ID level: exactly the
(reconciled) predicted instance IDs all of whose voxels lie where the
ground-truth binary mask is background. -/
lemma fpSet_eq_pure_background_ids (labels preds : Vol d1 d2 d3) (c : ℤ) :
    fpSet labels preds c =
      (Finset.Icc (instCount labels c + 1) (instCount labels c + instCount preds c)).filter
        (fun i => ∀ p, newPredMap labels preds c p = i → binarize labels c p = false) := by
  ext i
  rw [fpSet, Finset.mem_sdiff, Finset.mem_image, Finset.mem_filter, Finset.mem_Icc]
  constructor
  · rintro ⟨⟨p0, hp0, hip0⟩, hnotp⟩
    rw [Finset.mem_filter] at hp0
    obtain ⟨-, hgt0, hnew0⟩ := hp0
    have hbounds : instCount labels c + 1 ≤ i ∧
        i ≤ instCount labels c + instCount preds c := by
      have heq := newPredMap_eq labels preds c p0
      have hle := instMap_le preds c p0
      have hz := newPredMap_eq_zero_iff labels preds c p0
      rw [hip0] at heq hz
      by_cases h0 : instMap preds c p0 = 0
      · omega
      · rw [if_neg h0] at heq
        omega
    refine ⟨hbounds, ?_⟩
    intro p hpi
    by_contra hfg
    have hfg' : binarize labels c p = true := by
      cases hb : binarize labels c p
      · exact (hfg hb).elim
      · rfl
    have hgtpos : 0 < instMap labels c p := by
      have h := (instMap_ne_zero_iff labels c p).mpr hfg'
      omega
    apply hnotp
    rw [tpPredSet, Finset.mem_image]
    refine ⟨p, ?_, hpi⟩
    rw [Finset.mem_filter]
    refine ⟨Finset.mem_univ p, hgtpos, ?_⟩
    omega
  · rintro ⟨⟨h1, h2⟩, hall⟩
    obtain ⟨q, hq⟩ := instMap_surj preds c (i - instCount labels c) (by omega) (by omega)
    have hnewq : newPredMap labels preds c q = i := by
      rw [newPredMap_eq, if_neg (by omega), hq]
      omega
    have hbg : binarize labels c q = false := hall q hnewq
    have hgtq : instMap labels c q = 0 := by
      by_contra hgt
      have := (instMap_ne_zero_iff labels c q).mp hgt
      rw [hbg] at this
      exact Bool.false_ne_true this
    constructor
    · refine ⟨q, ?_, hnewq⟩
      rw [Finset.mem_filter]
      exact ⟨Finset.mem_univ q, hgtq, by omega⟩
    · intro hmem
      rw [tpPredSet, Finset.mem_image] at hmem
      obtain ⟨p, hp, hpi⟩ := hmem
      rw [Finset.mem_filter] at hp
      obtain ⟨-, hgtp, -⟩ := hp
      have hbgp : binarize labels c p = false := hall p hpi
      have : instMap labels c p = 0 := by
        by_contra hh
        have := (instMap_ne_zero_iff labels c p).mp hh
        rw [hbgp] at this
        exact Bool.false_ne_true this
      omega

/-- Detection F1 of lines 167-170:

    try:
        f1 = 2 * tp / (2 * tp + fp + fn)
    except ZeroDivisionError:
        f1 = np.NAN

The `np.NAN` sentinel (raised exactly when the denominator is zero) is
modelled as `none`; the finite quotient is modelled as an exact rational. -/
def caseF1 (tp fp fn : ℕ) : Option ℚ :=
  if 2 * tp + fp + fn = 0 then none
  else some ((2 * tp : ℚ) / (((2 * tp + fp + fn : ℕ) : ℚ)))

/-- One row of the per-class lesion-level table assembled at lines 172-180.
In the script the column names carry a `new_`/`basal_` class marker; the
marker only affects column naming, not the stored values. -/
structure LesionRecord where
  case_id : String
  n_ref_lesions : ℕ
  n_pred_lesions : ℕ
  lesion_tp : ℕ
  lesion_fp : ℕ
  lesion_fn : ℕ
  lesion_F1 : Option ℚ
deriving DecidableEq

/-- The cohort loop `compute_all_lesion_level_metrics` (lines 143-182): one
record per case ID, with the F1 value stored as computed (NaN included). -/
def computeAllLesionLevelMetrics (ids : List String)
    (labels_dict preds_dict : String → Vol d1 d2 d3) (lesion_class : ℤ) :
    List LesionRecord :=
  ids.map (fun cid =>
    let m := computeLesionLevelMetrics (labels_dict cid) (preds_dict cid) lesion_class
    LesionRecord.mk cid m.1 m.2.1 m.2.2.1 m.2.2.2.1 m.2.2.2.2
      (caseF1 m.2.2.1 m.2.2.2.1 m.2.2.2.2))

/-- Pandas `DataFrame.merge(other, on='case_id')` as invoked at lines 237-238
and 258: the DEFAULT join mode of `DataFrame.merge` is `how='inner'`, so the
result keeps exactly the rows whose key occurs on both sides, silently
dropping the others; no `validate` argument is passed and no exception is
raised for unmatched keys.  The tables involved have unique `case_id` keys,
so first-match lookup models the join. -/
def mergeOn {α β : Type} (left : List (String × α)) (right : List (String × β)) :
    List (String × α × β) :=
  left.filterMap (fun kv => (right.lookup kv.1).map (fun b => (kv.1, kv.2, b)))

lemma mergeOn_keys {α β : Type} (left : List (String × α)) (right : List (String × β)) :
    (mergeOn left right).map Prod.fst =
      (left.map Prod.fst).filter (fun k => (right.lookup k).isSome) := by
  induction left with
  | nil => rfl
  | cons kv t ih =>
    rw [mergeOn, List.filterMap_cons]
    cases h : right.lookup kv.1 with
    | none =>
      simp only [Option.map_none']
      rw [List.map_cons, List.filter_cons]
      have hfalse : ((right.lookup kv.1).isSome = true) = False := by
        rw [h]
        simp
      simp only [h, Option.isSome_none, Bool.false_eq_true, if_false]
      exact ih
    | some b =>
      simp only [Option.map_some']
      rw [List.map_cons, List.map_cons, List.filter_cons]
      simp only [h, Option.isSome_some, if_true]
      rw [← ih]
      rfl

lemma mergeOn_mem {α β : Type} (left : List (String × α)) (right : List (String × β))
    (k : String) (a : α) (b : β) (h : (k, a, b) ∈ mergeOn left right) :
    (k, a) ∈ left ∧ right.lookup k = some b := by
  rw [mergeOn, List.mem_filterMap] at h
  obtain ⟨kv, hkv, heq⟩ := h
  cases hl : right.lookup kv.1 with
  | none =>
    rw [hl] at heq
    simp at heq
  | some b' =>
    rw [hl] at heq
    simp only [Option.map_some', Option.some.injEq] at heq
    have hk : kv.1 = k := congrArg Prod.fst heq
    have hrest : (kv.2, b') = (a, b) := congrArg Prod.snd heq
    have ha : kv.2 = a := congrArg Prod.fst hrest
    have hb : b' = b := congrArg Prod.snd hrest
    constructor
    · have : kv = (k, a) := by
        rw [Prod.ext_iff]
        exact ⟨hk, ha⟩
      rw [← this]
      exact hkv
    · rw [← hk, hl, hb]

/-- A volume together with its own runtime shape, used where shape mismatch
itself is modelled. -/
structure NVol where
  nd1 : ℕ
  nd2 : ℕ
  nd3 : ℕ
  data : Fin nd1 → Fin nd2 → Fin nd3 → ℤ

/-- View an `NVol` as a `Vol` over its own index space. -/
def NVol.toVol (v : NVol) : Vol v.nd1 v.nd2 v.nd3 := fun p => v.data p.1 p.2.1 p.2.2

/-- Shape equality of two runtime-shaped volumes. -/
def sameShape (a b : NVol) : Prop := a.nd1 = b.nd1 ∧ a.nd2 = b.nd2 ∧ a.nd3 = b.nd3

instance (a b : NVol) : Decidable (sameShape a b) :=
  inferInstanceAs (Decidable (_ ∧ _ ∧ _))

/-- Shape-aware wrapper around `compute_lesion_level_metrics`.  The function
body has no shape check and no try/except: when `labels` and `preds` have
different (non-broadcastable) shapes, the elementwise comparisons at lines
128-131 make numpy raise `ValueError: operands could not be broadcast
together`, which propagates out of the function.  Equal shapes proceed
normally.  (We only ever instantiate the mismatch branch with shapes that are
not broadcastable, where numpy does raise.) -/
def computeLesionLevelMetricsChecked (labels preds : NVol) (c : ℤ) :
    Except String (ℕ × ℕ × ℕ × ℕ × ℕ) :=
  if h : sameShape labels preds then
    Except.ok (computeLesionLevelMetrics labels.toVol
      (fun p => preds.data (Fin.cast h.1 p.1) (Fin.cast h.2.1 p.2.1) (Fin.cast h.2.2 p.2.2)) c)
  else Except.error "operands could not be broadcast together"

/-- The cohort loop of `compute_all_lesion_level_metrics` (lines 159-165) runs
`compute_lesion_level_metrics` for each case with NO try/except: an exception
raised for any case propagates and aborts the whole loop.  Modelled with
`mapM` in the `Except` monad: the first error aborts, discarding all
previously computed per-case results. -/
def computeAllChecked (ids : List String) (labels_dict preds_dict : String → NVol)
    (c : ℤ) : Except String (List (String × (ℕ × ℕ × ℕ × ℕ × ℕ))) :=
  ids.mapM (fun cid =>
    (computeLesionLevelMetricsChecked (labels_dict cid) (preds_dict cid) c).map
      (fun m => (cid, m)))

lemma computeAllChecked_cons (cid : String) (t : List String)
    (labels_dict preds_dict : String → NVol) (c : ℤ) :
    computeAllChecked (cid :: t) labels_dict preds_dict c =
      (computeLesionLevelMetricsChecked (labels_dict cid) (preds_dict cid) c).map
          (fun m => (cid, m)) >>= fun x =>
        computeAllChecked t labels_dict preds_dict c >>= fun xs => pure (x :: xs) := by
  unfold computeAllChecked
  rw [List.mapM_cons]

lemma computeAllChecked_error_of_mismatch (ids : List String)
    (labels_dict preds_dict : String → NVol) (c : ℤ)
    (h : ∃ cid ∈ ids, ¬ sameShape (labels_dict cid) (preds_dict cid)) :
    ∃ msg, computeAllChecked ids labels_dict preds_dict c = Except.error msg := by
  induction ids with
  | nil =>
    obtain ⟨cid, hcid, -⟩ := h
    simp at hcid
  | cons a t ih =>
    cases hres : (computeLesionLevelMetricsChecked (labels_dict a) (preds_dict a) c).map
        (fun m => ((a, m) : String × (ℕ × ℕ × ℕ × ℕ × ℕ))) with
    | error e =>
      refine ⟨e, ?_⟩
      rw [computeAllChecked_cons, hres]
      rfl
    | ok x =>
      have ha : sameShape (labels_dict a) (preds_dict a) := by
        by_contra hn
        have h1 : computeLesionLevelMetricsChecked (labels_dict a) (preds_dict a) c =
            Except.error "operands could not be broadcast together" := dif_neg hn
        rw [h1] at hres
        exact Except.noConfusion hres
      obtain ⟨cid, hcid, hbad⟩ := h
      rw [List.mem_cons] at hcid
      rcases hcid with rfl | hcid
      · exact (hbad ha).elim
      · obtain ⟨msg, hmsg⟩ := ih ⟨cid, hcid, hbad⟩
        refine ⟨msg, ?_⟩
        rw [computeAllChecked_cons, hres]
        show computeAllChecked t labels_dict preds_dict c >>= _ = _
        rw [hmsg]
        rfl

/-- One iteration of the dictionary-building loop of
`get_all_preds_and_labels` (lines 97-100): read both volumes of the case and
store them under the case ID in the two dictionaries. -/
def getAllStep (read : String → Vol d1 d2 d3 × Vol d1 d2 d3)
    (dicts : List (String × Vol d1 d2 d3) × List (String × Vol d1 d2 d3))
    (cid : String) :
    List (String × Vol d1 d2 d3) × List (String × Vol d1 d2 d3) :=
  (dicts.1 ++ [(cid, (read cid).1)], dicts.2 ++ [(cid, (read cid).2)])

/-- The function `get_all_preds_and_labels` (lines 85-101): iterates over all
case IDs, reads each case's label and prediction volumes through the volume
provider `read` (modelling `read_labels_and_preds`) and accumulates BOTH full
decoded volumes of EVERY case into two cohort-wide dictionaries, which it
returns.  The main block calls this once per cohort, before any per-case
metric computation. -/
def getAllPredsAndLabels (read : String → Vol d1 d2 d3 × Vol d1 d2 d3)
    (ids : List String) :
    List (String × Vol d1 d2 d3) × List (String × Vol d1 d2 d3) :=
  ids.foldl (getAllStep read) ([], [])

lemma getAll_foldl_acc (read : String → Vol d1 d2 d3 × Vol d1 d2 d3)
    (ids : List String) :
    ∀ acc : List (String × Vol d1 d2 d3) × List (String × Vol d1 d2 d3),
      ids.foldl (getAllStep read) acc =
        (acc.1 ++ ids.map (fun cid => (cid, (read cid).1)),
          acc.2 ++ ids.map (fun cid => (cid, (read cid).2))) := by
  induction ids with
  | nil =>
    intro acc
    simp
  | cons a t ih =>
    intro acc
    rw [List.foldl_cons, ih]
    simp [getAllStep]

/-- Closed form: the two returned dictionaries hold, in order, one entry per
case ID, each carrying that case's full decoded volume. -/
lemma getAllPredsAndLabels_eq (read : String → Vol d1 d2 d3 × Vol d1 d2 d3)
    (ids : List String) :
    getAllPredsAndLabels read ids =
      (ids.map (fun cid => (cid, (read cid).1)),
        ids.map (fun cid => (cid, (read cid).2))) := by
  rw [getAllPredsAndLabels, getAll_foldl_acc]
  simp

lemma lookup_map_self {γ : Type} (l : List String) (f : String → γ) (a : String)
    (hmem : a ∈ l) :
    (l.map (fun c => (c, f c))).lookup a = some (f a) := by
  induction l with
  | nil => simp at hmem
  | cons b t ih =>
    rw [List.mem_cons] at hmem
    rcases hmem with hmem | hmem
    · subst hmem
      simp [List.lookup]
    · by_cases hb : a = b
      · subst hb
        simp [List.lookup]
      · simp only [List.map, List.lookup]
        rw [show (a == b) = false from beq_eq_false_iff_ne.mpr hb]
        exact ih hmem

/-- A heap of integer arrays indexed by references, used to analyse the
in-place effects of `compute_lesion_level_metrics`: numpy arrays live in a
store, reads go through the current store, and the fancy-indexing assignment
`new_predicted_lesions[predicted_lesions == pred_lesion_id] = ...` at line 125
is the only statement of the function body that writes into an existing
array; every other operation allocates a fresh array. -/
structure Mem (d1 d2 d3 : ℕ) where
  store : ℕ → Pos d1 d2 d3 → ℤ
  next : ℕ

/-- Allocate a fresh array, returning the new heap and the fresh reference. -/
def Mem.alloc (m : Mem d1 d2 d3) (a : Pos d1 d2 d3 → ℤ) : Mem d1 d2 d3 × ℕ :=
  (Mem.mk (fun i => if i = m.next then a else m.store i) (m.next + 1), m.next)

/-- Overwrite the array held at an existing reference. -/
def Mem.write (m : Mem d1 d2 d3) (r : ℕ) (a : Pos d1 d2 d3 → ℤ) : Mem d1 d2 d3 :=
  Mem.mk (fun i => if i = r then a else m.store i) m.next

lemma Mem.alloc_fst_store_ne (m : Mem d1 d2 d3) (a : Pos d1 d2 d3 → ℤ) (r : ℕ)
    (h : r ≠ m.next) : (m.alloc a).1.store r = m.store r := by
  rw [Mem.alloc]
  exact if_neg h

lemma Mem.alloc_fst_store_self (m : Mem d1 d2 d3) (a : Pos d1 d2 d3 → ℤ) :
    (m.alloc a).1.store (m.alloc a).2 = a := by
  rw [Mem.alloc]
  exact if_pos rfl

lemma Mem.alloc_fst_next (m : Mem d1 d2 d3) (a : Pos d1 d2 d3 → ℤ) :
    (m.alloc a).1.next = m.next + 1 := rfl

lemma Mem.alloc_snd (m : Mem d1 d2 d3) (a : Pos d1 d2 d3 → ℤ) :
    (m.alloc a).2 = m.next := rfl

lemma Mem.write_store_ne (m : Mem d1 d2 d3) (r' : ℕ) (a : Pos d1 d2 d3 → ℤ) (r : ℕ)
    (h : r ≠ r') : (m.write r' a).store r = m.store r := by
  rw [Mem.write]
  exact if_neg h

lemma Mem.write_store_self (m : Mem d1 d2 d3) (r : ℕ) (a : Pos d1 d2 d3 → ℤ) :
    (m.write r a).store r = a := by
  rw [Mem.write]
  exact if_pos rfl

lemma Mem.write_next (m : Mem d1 d2 d3) (r : ℕ) (a : Pos d1 d2 d3 → ℤ) :
    (m.write r a).next = m.next := rfl

/-- One iteration of the relabeling loop (lines 123-125) on the heap: read the
ORIGINAL predicted map at `predRef` from the current store and overwrite the
matching voxels of the array at `newRef`. -/
def memLoopStep (predRef newRef gtn : ℕ) (mm : Mem d1 d2 d3)
    (pred_lesion_id : ℕ) : Mem d1 d2 d3 :=
  mm.write newRef (fun p =>
    if mm.store predRef p = (pred_lesion_id : ℤ)
      then ((pred_lesion_id + gtn : ℕ) : ℤ)
      else mm.store newRef p)

/-- Pure (array-level) analogue of one relabeling iteration. -/
def arrLoopStep (predArr : Pos d1 d2 d3 → ℤ) (gtn : ℕ)
    (arr : Pos d1 d2 d3 → ℤ) (pred_lesion_id : ℕ) : Pos d1 d2 d3 → ℤ :=
  fun p =>
    if predArr p = (pred_lesion_id : ℤ)
      then ((pred_lesion_id + gtn : ℕ) : ℤ)
      else arr p

/-- Instance-overlap sets and counts of lines 128-135, computed from the final
heap contents (`gtA` = ground-truth instance array, `predA` = original
predicted instance array, `newA` = reconciled predicted instance array;
`tp_gt` reads the ORIGINAL predicted array, the other sets the reconciled
one, exactly as in the source). -/
def overlapCounts (gtA predA newA : Pos d1 d2 d3 → ℤ) : ℕ × ℕ × ℕ :=
  let tp_gt := (Finset.univ.filter (fun p => 0 < gtA p ∧ 0 < predA p)).image gtA
  let tp_pred := (Finset.univ.filter (fun p => 0 < gtA p ∧ 0 < newA p)).image newA
  let fp := ((Finset.univ.filter (fun p => gtA p = 0 ∧ 0 < newA p)).image newA) \ tp_pred
  let fn := ((Finset.univ.filter (fun p => 0 < gtA p ∧ newA p = 0)).image gtA) \ tp_gt
  (tp_gt.card, fp.card, fn.card)

/-- Line 116: `gt_lesions, n_gt_lesions = label(labels == lesion_class, ...)`,
reading the labels array from the heap. -/
def gtInstMem (m0 : Mem d1 d2 d3) (labelsRef : ℕ) (lesion_class : ℤ) :
    (Pos d1 d2 d3 → ℕ) × ℕ :=
  extractInstances (binarize (m0.store labelsRef) lesion_class)

/-- Allocation of the fresh `gt_lesions` array produced by `label`. -/
def memAfterGtAlloc (m0 : Mem d1 d2 d3) (labelsRef : ℕ) (lesion_class : ℤ) :
    Mem d1 d2 d3 × ℕ :=
  m0.alloc (fun p => ((gtInstMem m0 labelsRef lesion_class).1 p : ℤ))

/-- Line 119: `predicted_lesions, n_predicted_lesions = label(preds == ...)`,
reading the preds array from the current heap. -/
def predInstMem (m0 : Mem d1 d2 d3) (labelsRef predsRef : ℕ) (lesion_class : ℤ) :
    (Pos d1 d2 d3 → ℕ) × ℕ :=
  extractInstances
    (binarize ((memAfterGtAlloc m0 labelsRef lesion_class).1.store predsRef) lesion_class)

/-- Allocation of the fresh `predicted_lesions` array produced by `label`. -/
def memAfterPredAlloc (m0 : Mem d1 d2 d3) (labelsRef predsRef : ℕ)
    (lesion_class : ℤ) : Mem d1 d2 d3 × ℕ :=
  (memAfterGtAlloc m0 labelsRef lesion_class).1.alloc
    (fun p => ((predInstMem m0 labelsRef predsRef lesion_class).1 p : ℤ))

/-- Line 122: `new_predicted_lesions = np.copy(predicted_lesions)` — a fresh
array holding the current contents of the `predicted_lesions` cell. -/
def memAfterCopyAlloc (m0 : Mem d1 d2 d3) (labelsRef predsRef : ℕ)
    (lesion_class : ℤ) : Mem d1 d2 d3 × ℕ :=
  (memAfterPredAlloc m0 labelsRef predsRef lesion_class).1.alloc
    ((memAfterPredAlloc m0 labelsRef predsRef lesion_class).1.store
      (memAfterPredAlloc m0 labelsRef predsRef lesion_class).2)

/-- Lines 123-125: the relabeling loop, writing only into the copy. -/
def memAfterLoop (m0 : Mem d1 d2 d3) (labelsRef predsRef : ℕ)
    (lesion_class : ℤ) : Mem d1 d2 d3 :=
  (List.range' 1 (predInstMem m0 labelsRef predsRef lesion_class).2).foldl
    (memLoopStep (memAfterPredAlloc m0 labelsRef predsRef lesion_class).2
      (memAfterCopyAlloc m0 labelsRef predsRef lesion_class).2
      (gtInstMem m0 labelsRef lesion_class).2)
    (memAfterCopyAlloc m0 labelsRef predsRef lesion_class).1

/-- Heap-level embedding of `compute_lesion_level_metrics` (lines 104-140).
The input arrays are the heap cells `labelsRef` and `predsRef`; `label(...)`
allocates the two instance arrays, `np.copy` allocates the third, the loop of
lines 123-125 overwrites only the copy, and the sets of lines 128-131 are
computed from the resulting heap. -/
def computeLesionLevelMetricsMem (m0 : Mem d1 d2 d3) (labelsRef predsRef : ℕ)
    (lesion_class : ℤ) : Mem d1 d2 d3 × (ℕ × ℕ × ℕ × ℕ × ℕ) :=
  let m4 := memAfterLoop m0 labelsRef predsRef lesion_class
  let oc := overlapCounts
    (m4.store (memAfterGtAlloc m0 labelsRef lesion_class).2)
    (m4.store (memAfterPredAlloc m0 labelsRef predsRef lesion_class).2)
    (m4.store (memAfterCopyAlloc m0 labelsRef predsRef lesion_class).2)
  (m4, ((gtInstMem m0 labelsRef lesion_class).2,
    (predInstMem m0 labelsRef predsRef lesion_class).2, oc.1, oc.2.1, oc.2.2))

/-- What the heap-level computation returns, as a pure function of the two
input arrays alone. -/
def memResultSpec (labelsArr predsArr : Pos d1 d2 d3 → ℤ) (lesion_class : ℤ) :
    ℕ × ℕ × ℕ × ℕ × ℕ :=
  let gt := extractInstances (binarize labelsArr lesion_class)
  let pr := extractInstances (binarize predsArr lesion_class)
  let gtA : Pos d1 d2 d3 → ℤ := fun p => (gt.1 p : ℤ)
  let predA : Pos d1 d2 d3 → ℤ := fun p => (pr.1 p : ℤ)
  let newA := (List.range' 1 pr.2).foldl (arrLoopStep predA gt.2) predA
  let oc := overlapCounts gtA predA newA
  (gt.2, pr.2, oc.1, oc.2.1, oc.2.2)

lemma memLoop_props (predRef newRef gtn : ℕ) (hne : predRef ≠ newRef)
    (l : List ℕ) :
    ∀ mm : Mem d1 d2 d3,
      (∀ r, r ≠ newRef →
          (l.foldl (memLoopStep predRef newRef gtn) mm).store r = mm.store r) ∧
        (l.foldl (memLoopStep predRef newRef gtn) mm).next = mm.next ∧
        (l.foldl (memLoopStep predRef newRef gtn) mm).store newRef =
          l.foldl (arrLoopStep (mm.store predRef) gtn) (mm.store newRef) := by
  induction l with
  | nil =>
    intro mm
    exact ⟨fun r _ => rfl, rfl, rfl⟩
  | cons a t ih =>
    intro mm
    rw [List.foldl_cons, List.foldl_cons]
    obtain ⟨ihs, ihn, ihnew⟩ := ih (memLoopStep predRef newRef gtn mm a)
    have hpred : (memLoopStep predRef newRef gtn mm a).store predRef = mm.store predRef :=
      Mem.write_store_ne mm newRef _ predRef hne
    have hnew : (memLoopStep predRef newRef gtn mm a).store newRef =
        arrLoopStep (mm.store predRef) gtn (mm.store newRef) a :=
      Mem.write_store_self mm newRef _
    refine ⟨?_, ?_, ?_⟩
    · intro r hr
      rw [ihs r hr]
      exact Mem.write_store_ne mm newRef _ r hr
    · rw [ihn]
      exact Mem.write_next mm newRef _
    · rw [ihnew, hpred, hnew]

lemma memAfterGtAlloc_snd (m0 : Mem d1 d2 d3) (labelsRef : ℕ) (c : ℤ) :
    (memAfterGtAlloc m0 labelsRef c).2 = m0.next := rfl

lemma memAfterPredAlloc_snd (m0 : Mem d1 d2 d3) (labelsRef predsRef : ℕ) (c : ℤ) :
    (memAfterPredAlloc m0 labelsRef predsRef c).2 = m0.next + 1 := rfl

lemma memAfterCopyAlloc_snd (m0 : Mem d1 d2 d3) (labelsRef predsRef : ℕ) (c : ℤ) :
    (memAfterCopyAlloc m0 labelsRef predsRef c).2 = m0.next + 2 := rfl

lemma memAfterCopyAlloc_fst_next (m0 : Mem d1 d2 d3) (labelsRef predsRef : ℕ)
    (c : ℤ) : (memAfterCopyAlloc m0 labelsRef predsRef c).1.next = m0.next + 3 := rfl

lemma memAfterGtAlloc_store (m0 : Mem d1 d2 d3) (labelsRef : ℕ) (c : ℤ) (r : ℕ)
    (h : r ≠ m0.next) :
    (memAfterGtAlloc m0 labelsRef c).1.store r = m0.store r :=
  Mem.alloc_fst_store_ne m0 _ r h

lemma memAfterGtAlloc_store_gt (m0 : Mem d1 d2 d3) (labelsRef : ℕ) (c : ℤ) :
    (memAfterGtAlloc m0 labelsRef c).1.store m0.next =
      fun p => ((gtInstMem m0 labelsRef c).1 p : ℤ) :=
  Mem.alloc_fst_store_self m0 _

lemma predInstMem_eq (m0 : Mem d1 d2 d3) (labelsRef predsRef : ℕ) (c : ℤ)
    (hp : predsRef ≠ m0.next) :
    predInstMem m0 labelsRef predsRef c =
      extractInstances (binarize (m0.store predsRef) c) := by
  unfold predInstMem
  rw [memAfterGtAlloc_store m0 labelsRef c predsRef hp]

lemma memAfterPredAlloc_store (m0 : Mem d1 d2 d3) (labelsRef predsRef : ℕ)
    (c : ℤ) (r : ℕ) (h1 : r ≠ m0.next) (h2 : r ≠ m0.next + 1) :
    (memAfterPredAlloc m0 labelsRef predsRef c).1.store r = m0.store r := by
  unfold memAfterPredAlloc
  rw [Mem.alloc_fst_store_ne _ _ r h2]
  exact memAfterGtAlloc_store m0 labelsRef c r h1

lemma memAfterPredAlloc_store_gt (m0 : Mem d1 d2 d3) (labelsRef predsRef : ℕ)
    (c : ℤ) :
    (memAfterPredAlloc m0 labelsRef predsRef c).1.store m0.next =
      fun p => ((gtInstMem m0 labelsRef c).1 p : ℤ) := by
  unfold memAfterPredAlloc
  rw [Mem.alloc_fst_store_ne _ _ m0.next (Nat.ne_of_lt (Nat.lt_succ_self m0.next))]
  exact memAfterGtAlloc_store_gt m0 labelsRef c

lemma memAfterPredAlloc_store_pred (m0 : Mem d1 d2 d3) (labelsRef predsRef : ℕ)
    (c : ℤ) :
    (memAfterPredAlloc m0 labelsRef predsRef c).1.store (m0.next + 1) =
      fun p => ((predInstMem m0 labelsRef predsRef c).1 p : ℤ) :=
  Mem.alloc_fst_store_self _ _

lemma memAfterCopyAlloc_store (m0 : Mem d1 d2 d3) (labelsRef predsRef : ℕ)
    (c : ℤ) (r : ℕ) (h1 : r ≠ m0.next) (h2 : r ≠ m0.next + 1)
    (h3 : r ≠ m0.next + 2) :
    (memAfterCopyAlloc m0 labelsRef predsRef c).1.store r = m0.store r := by
  unfold memAfterCopyAlloc
  rw [Mem.alloc_fst_store_ne _ _ r h3]
  exact memAfterPredAlloc_store m0 labelsRef predsRef c r h1 h2

lemma memAfterCopyAlloc_store_gt (m0 : Mem d1 d2 d3) (labelsRef predsRef : ℕ)
    (c : ℤ) :
    (memAfterCopyAlloc m0 labelsRef predsRef c).1.store m0.next =
      fun p => ((gtInstMem m0 labelsRef c).1 p : ℤ) := by
  unfold memAfterCopyAlloc
  rw [Mem.alloc_fst_store_ne _ _ m0.next (show m0.next ≠ m0.next + 2 by omega)]
  exact memAfterPredAlloc_store_gt m0 labelsRef predsRef c

lemma memAfterCopyAlloc_store_pred (m0 : Mem d1 d2 d3) (labelsRef predsRef : ℕ)
    (c : ℤ) :
    (memAfterCopyAlloc m0 labelsRef predsRef c).1.store (m0.next + 1) =
      fun p => ((predInstMem m0 labelsRef predsRef c).1 p : ℤ) := by
  unfold memAfterCopyAlloc
  rw [Mem.alloc_fst_store_ne _ _ (m0.next + 1) (show m0.next + 1 ≠ m0.next + 2 by omega)]
  exact memAfterPredAlloc_store_pred m0 labelsRef predsRef c

lemma memAfterCopyAlloc_store_new (m0 : Mem d1 d2 d3) (labelsRef predsRef : ℕ)
    (c : ℤ) :
    (memAfterCopyAlloc m0 labelsRef predsRef c).1.store (m0.next + 2) =
      fun p => ((predInstMem m0 labelsRef predsRef c).1 p : ℤ) := by
  have h := Mem.alloc_fst_store_self (memAfterPredAlloc m0 labelsRef predsRef c).1
    ((memAfterPredAlloc m0 labelsRef predsRef c).1.store
      (memAfterPredAlloc m0 labelsRef predsRef c).2)
  have h2 := memAfterPredAlloc_store_pred m0 labelsRef predsRef c
  exact h.trans h2

/-- The frame and determinism facts for the heap-level computation: the input
cells are untouched, exactly three fresh arrays are allocated, and the result
is a pure function of the two input arrays. -/
lemma computeMem_frame (m0 : Mem d1 d2 d3) (labelsRef predsRef : ℕ) (c : ℤ)
    (hl : labelsRef < m0.next) (hp : predsRef < m0.next) :
    (computeLesionLevelMetricsMem m0 labelsRef predsRef c).1.store labelsRef =
        m0.store labelsRef ∧
      (computeLesionLevelMetricsMem m0 labelsRef predsRef c).1.store predsRef =
        m0.store predsRef ∧
      (computeLesionLevelMetricsMem m0 labelsRef predsRef c).1.next = m0.next + 3 ∧
      (computeLesionLevelMetricsMem m0 labelsRef predsRef c).2 =
        memResultSpec (m0.store labelsRef) (m0.store predsRef) c := by
  have hne : (memAfterPredAlloc m0 labelsRef predsRef c).2 ≠
      (memAfterCopyAlloc m0 labelsRef predsRef c).2 := by
    rw [memAfterPredAlloc_snd, memAfterCopyAlloc_snd]
    omega
  obtain ⟨hLs, hLn, hLnew⟩ := memLoop_props
    (memAfterPredAlloc m0 labelsRef predsRef c).2
    (memAfterCopyAlloc m0 labelsRef predsRef c).2
    (gtInstMem m0 labelsRef c).2 hne
    (List.range' 1 (predInstMem m0 labelsRef predsRef c).2)
    (memAfterCopyAlloc m0 labelsRef predsRef c).1
  have hm4 : memAfterLoop m0 labelsRef predsRef c =
      (List.range' 1 (predInstMem m0 labelsRef predsRef c).2).foldl
        (memLoopStep (memAfterPredAlloc m0 labelsRef predsRef c).2
          (memAfterCopyAlloc m0 labelsRef predsRef c).2
          (gtInstMem m0 labelsRef c).2)
        (memAfterCopyAlloc m0 labelsRef predsRef c).1 := rfl
  have hstore : ∀ r, r ≠ m0.next + 2 →
      (memAfterLoop m0 labelsRef predsRef c).store r =
        (memAfterCopyAlloc m0 labelsRef predsRef c).1.store r := by
    intro r hr
    rw [hm4]
    apply hLs
    rw [memAfterCopyAlloc_snd]
    exact hr
  have hlab : (memAfterLoop m0 labelsRef predsRef c).store labelsRef =
      m0.store labelsRef := by
    rw [hstore labelsRef (by omega)]
    exact memAfterCopyAlloc_store m0 labelsRef predsRef c labelsRef
      (by omega) (by omega) (by omega)
  have hprd : (memAfterLoop m0 labelsRef predsRef c).store predsRef =
      m0.store predsRef := by
    rw [hstore predsRef (by omega)]
    exact memAfterCopyAlloc_store m0 labelsRef predsRef c predsRef
      (by omega) (by omega) (by omega)
  have hnext : (memAfterLoop m0 labelsRef predsRef c).next = m0.next + 3 := by
    rw [hm4, hLn]
    exact memAfterCopyAlloc_fst_next m0 labelsRef predsRef c
  have hgtA : (memAfterLoop m0 labelsRef predsRef c).store
      (memAfterGtAlloc m0 labelsRef c).2 =
      fun p => ((gtInstMem m0 labelsRef c).1 p : ℤ) := by
    rw [memAfterGtAlloc_snd, hstore m0.next (by omega)]
    exact memAfterCopyAlloc_store_gt m0 labelsRef predsRef c
  have hpredA : (memAfterLoop m0 labelsRef predsRef c).store
      (memAfterPredAlloc m0 labelsRef predsRef c).2 =
      fun p => ((predInstMem m0 labelsRef predsRef c).1 p : ℤ) := by
    rw [memAfterPredAlloc_snd, hstore (m0.next + 1) (by omega)]
    exact memAfterCopyAlloc_store_pred m0 labelsRef predsRef c
  have hnewA : (memAfterLoop m0 labelsRef predsRef c).store
      (memAfterCopyAlloc m0 labelsRef predsRef c).2 =
      (List.range' 1 (predInstMem m0 labelsRef predsRef c).2).foldl
        (arrLoopStep (fun p => ((predInstMem m0 labelsRef predsRef c).1 p : ℤ))
          (gtInstMem m0 labelsRef c).2)
        (fun p => ((predInstMem m0 labelsRef predsRef c).1 p : ℤ)) := by
    rw [hm4, hLnew]
    have e1 : (memAfterCopyAlloc m0 labelsRef predsRef c).1.store
        (memAfterPredAlloc m0 labelsRef predsRef c).2 =
        fun p => ((predInstMem m0 labelsRef predsRef c).1 p : ℤ) := by
      rw [memAfterPredAlloc_snd]
      exact memAfterCopyAlloc_store_pred m0 labelsRef predsRef c
    have e2 : (memAfterCopyAlloc m0 labelsRef predsRef c).1.store
        (memAfterCopyAlloc m0 labelsRef predsRef c).2 =
        fun p => ((predInstMem m0 labelsRef predsRef c).1 p : ℤ) := by
      rw [memAfterCopyAlloc_snd]
      exact memAfterCopyAlloc_store_new m0 labelsRef predsRef c
    rw [e1, e2]
  have hpinst : predInstMem m0 labelsRef predsRef c =
      extractInstances (binarize (m0.store predsRef) c) :=
    predInstMem_eq m0 labelsRef predsRef c (by omega)
  refine ⟨hlab, hprd, hnext, ?_⟩
  show ((gtInstMem m0 labelsRef c).2,
      (predInstMem m0 labelsRef predsRef c).2,
      (overlapCounts
        ((memAfterLoop m0 labelsRef predsRef c).store (memAfterGtAlloc m0 labelsRef c).2)
        ((memAfterLoop m0 labelsRef predsRef c).store
          (memAfterPredAlloc m0 labelsRef predsRef c).2)
        ((memAfterLoop m0 labelsRef predsRef c).store
          (memAfterCopyAlloc m0 labelsRef predsRef c).2)).1,
      (overlapCounts
        ((memAfterLoop m0 labelsRef predsRef c).store (memAfterGtAlloc m0 labelsRef c).2)
        ((memAfterLoop m0 labelsRef predsRef c).store
          (memAfterPredAlloc m0 labelsRef predsRef c).2)
        ((memAfterLoop m0 labelsRef predsRef c).store
          (memAfterCopyAlloc m0 labelsRef predsRef c).2)).2.1,
      (overlapCounts
        ((memAfterLoop m0 labelsRef predsRef c).store (memAfterGtAlloc m0 labelsRef c).2)
        ((memAfterLoop m0 labelsRef predsRef c).store
          (memAfterPredAlloc m0 labelsRef predsRef c).2)
        ((memAfterLoop m0 labelsRef predsRef c).store
          (memAfterCopyAlloc m0 labelsRef predsRef c).2)).2.2) =
    memResultSpec (m0.store labelsRef) (m0.store predsRef) c
  rw [hgtA, hpredA, hnewA, hpinst]
  rfl

/-- Scenario volume: two disjoint ground-truth lesions of class 2 on a 3x1x1
grid (voxels x=0 and x=2). -/
def volD_gt : Vol 3 1 1 := fun p => if p.1.val = 1 then 0 else 2

/-- Scenario volume: one predicted lesion of class 2 covering the whole 3x1x1
grid, overlapping both ground-truth lesions of `volD_gt`. -/
def volD_pred : Vol 3 1 1 := fun _ => 2

/-- Scenario volume: one ground-truth lesion of class 2 covering the whole
3x1x1 grid. -/
def volC_gt : Vol 3 1 1 := fun _ => 2

/-- Scenario volume: two disjoint predicted fragments of class 2 (voxels x=0
and x=2), both overlapping the single lesion of `volC_gt`. -/
def volC_pred : Vol 3 1 1 := fun p => if p.1.val = 1 then 0 else 2

/-- Scenario volume: one ground-truth lesion of class 2 at voxel x=0 of a
3x1x1 grid. -/
def volE_gt : Vol 3 1 1 := fun p => if p.1.val = 0 then 2 else 0

/-- Scenario volume: one predicted lesion of class 2 at voxel x=2, with zero
overlap with the foreground of `volE_gt`. -/
def volE_pred : Vol 3 1 1 := fun p => if p.1.val = 2 then 2 else 0

/-- Scenario volume: a single-voxel volume entirely of class 2 (used for the
identical ground truth / prediction scenario). -/
def volB : Vol 1 1 1 := fun _ => 2

lemma foldl_scanStep_false (l : List (Pos d1 d2 d3)) (st : (Pos d1 d2 d3 → ℕ) × ℕ) :
    l.foldl (scanStep (fun _ => false)) st = st := by
  induction l with
  | nil => rfl
  | cons p t ih =>
    rw [List.foldl_cons, show scanStep (fun _ => false) st p = st from if_neg (by simp)]
    exact ih

/-- C1: for every pair of same-shape label/prediction volumes and every lesion
class, the matching identities `len(tp_pred) + fp == n_predicted_lesions` and
`len(tp_gt) + fn == n_gt_lesions` hold, so the two `assert` statements at
lines 137-138 of `compute_lesion_level_metrics` never fire. -/
theorem c1_matching_identities :
    ∀ (d1 d2 d3 : ℕ) (labels preds : Vol d1 d2 d3) (lesion_class : ℤ),
      assertionsHold labels preds lesion_class ∧
        (tpPredSet labels preds lesion_class).card +
            (fpSet labels preds lesion_class).card = instCount preds lesion_class ∧
        (tpGtSet labels preds lesion_class).card +
            (fnSet labels preds lesion_class).card = instCount labels lesion_class :=
  fun _ _ _ labels preds c =>
    ⟨⟨tpPredSet_card_add_fpSet_card labels preds c,
        tpGtSet_card_add_fnSet_card labels preds c⟩,
      tpPredSet_card_add_fpSet_card labels preds c,
      tpGtSet_card_add_fnSet_card labels preds c⟩

/-- C3: the reported `tp` equals the number of distinct ground-truth instance
IDs sharing at least one voxel with predicted foreground; one predicted
instance overlapping two disjoint ground-truth instances yields tp = 2 with
that single predicted ID in `tp_pred` and FP = FN = 0 (scenario `volD`), and
one ground-truth instance overlapped by two predicted fragments yields tp = 1
(scenario `volC`). -/
theorem c3_true_positive_counting :
    (∀ (d1 d2 d3 : ℕ) (labels preds : Vol d1 d2 d3) (lesion_class : ℤ),
        (computeLesionLevelMetrics labels preds lesion_class).2.2.1 =
          ((Finset.Icc 1 (instCount labels lesion_class)).filter
            (fun i => ∃ p, instMap labels lesion_class p = i ∧
              instMap preds lesion_class p ≠ 0)).card) ∧
      computeLesionLevelMetrics volD_gt volD_pred 2 = (2, 1, 2, 0, 0) ∧
      tpPredSet volD_gt volD_pred 2 = {3} ∧
      computeLesionLevelMetrics volC_gt volC_pred 2 = (1, 2, 1, 0, 0) ∧
      tpPredSet volC_gt volC_pred 2 = {2, 3} := by
  refine ⟨?_, by decide, by decide, by decide, by decide⟩
  intro d1 d2 d3 labels preds c
  show (tpGtSet labels preds c).card = _
  rw [tpGtSet_eq_overlap_ids]

/-- C5: the `fp` set equals exactly the set of (reconciled) predicted instance
IDs all of whose voxels lie where the ground-truth binary mask is background;
in particular a predicted lesion with zero overlap with ground-truth
foreground is counted in FP (scenario `volE`). -/
theorem c5_false_positive_set :
    (∀ (d1 d2 d3 : ℕ) (labels preds : Vol d1 d2 d3) (lesion_class : ℤ),
        fpSet labels preds lesion_class =
          (Finset.Icc (instCount labels lesion_class + 1)
              (instCount labels lesion_class + instCount preds lesion_class)).filter
            (fun i => ∀ p, newPredMap labels preds lesion_class p = i →
              binarize labels lesion_class p = false)) ∧
      computeLesionLevelMetrics volE_gt volE_pred 2 = (1, 1, 0, 1, 1) ∧
      fpSet volE_gt volE_pred 2 = {2} := by
  refine ⟨?_, by decide, by decide⟩
  intro d1 d2 d3 labels preds c
  exact fpSet_eq_pure_background_ids labels preds c

/-- C6: instance extraction returns a count equal to the number of
26-connectivity connected components of the mask (with `component` membership
being exactly 26-connectivity reachability); the empty mask gives count 0 and
the all-zero map; hand-constructed checks: a single voxel is its own instance,
two face-adjacent voxels are one component, two voxels sharing only a corner
are one component, and two voxels separated by an empty voxel are two
components. -/
theorem c6_instance_extraction :
    (∀ (d1 d2 d3 : ℕ) (mask : Pos d1 d2 d3 → Bool),
        (extractInstances mask).2 = ncomponents mask) ∧
      (∀ (d1 d2 d3 : ℕ) (mask : Pos d1 d2 d3 → Bool) (p q : Pos d1 d2 d3),
        q ∈ component mask p ↔ Relation.ReflTransGen (stepRel mask) p q) ∧
      (∀ d1 d2 d3 : ℕ,
        extractInstances (fun _ => false : Pos d1 d2 d3 → Bool) = (fun _ => 0, 0)) ∧
      extractInstances (fun _ => true : Pos 1 1 1 → Bool) = (fun _ => 1, 1) ∧
      (extractInstances (fun _ => true : Pos 2 1 1 → Bool)).2 = 1 ∧
      (extractInstances
        (fun p => p = ((0 : Fin 2), (0 : Fin 2), (0 : Fin 2)) ∨ p = (1, 1, 1) :
          Pos 2 2 2 → Bool)).2 = 1 ∧
      (extractInstances (fun p => p.1.val = 0 ∨ p.1.val = 2 : Pos 3 1 1 → Bool)).2 = 2 := by
  refine ⟨?_, ?_, ?_, by decide, by decide, by decide, by decide⟩
  · intro d1 d2 d3 mask
    exact extract_count_eq_ncomponents mask
  · intro d1 d2 d3 mask p q
    exact mem_component_iff
  · intro d1 d2 d3
    exact foldl_scanStep_false (allPos d1 d2 d3) (fun _ => 0, 0)

/-- C7: the ID-reconciliation loop shifts every non-zero predicted instance ID
by `+n_gt`, so non-zero reconciled IDs lie in `[n_gt+1, n_gt+n_pred]`, a range
disjoint from the ground-truth range `[1, n_gt]`, and no two distinct
predicted instances are merged by the relabeling. -/
theorem c7_reconciliation :
    ∀ (d1 d2 d3 : ℕ) (predicted_lesions : Pos d1 d2 d3 → ℕ)
      (n_predicted_lesions n_gt_lesions : ℕ),
      (∀ p, predicted_lesions p ≤ n_predicted_lesions) →
        (∀ p, reconcile predicted_lesions n_predicted_lesions n_gt_lesions p ≠ 0 →
          reconcile predicted_lesions n_predicted_lesions n_gt_lesions p =
              predicted_lesions p + n_gt_lesions ∧
            n_gt_lesions + 1 ≤
              reconcile predicted_lesions n_predicted_lesions n_gt_lesions p ∧
            reconcile predicted_lesions n_predicted_lesions n_gt_lesions p ≤
              n_gt_lesions + n_predicted_lesions ∧
            reconcile predicted_lesions n_predicted_lesions n_gt_lesions p ∉
              Finset.Icc 1 n_gt_lesions) ∧
        (∀ p q,
          reconcile predicted_lesions n_predicted_lesions n_gt_lesions p =
              reconcile predicted_lesions n_predicted_lesions n_gt_lesions q ↔
            predicted_lesions p = predicted_lesions q) := by
  intro d1 d2 d3 pl np ng hbound
  constructor
  · intro p hne
    rw [reconcile_eq pl np ng hbound p] at hne ⊢
    by_cases hz : pl p = 0
    · rw [if_pos hz] at hne
      exact (hne rfl).elim
    · rw [if_neg hz]
      have hle := hbound p
      refine ⟨rfl, by omega, by omega, ?_⟩
      rw [Finset.mem_Icc]
      omega
  · intro p q
    rw [reconcile_eq pl np ng hbound p, reconcile_eq pl np ng hbound q]
    by_cases hp : pl p = 0 <;> by_cases hq : pl q = 0
    · rw [if_pos hp, if_pos hq]
      constructor
      · intro _
        omega
      · intro _
        rfl
    · rw [if_pos hp, if_neg hq]
      constructor
      · intro h
        omega
      · intro h
        omega
    · rw [if_neg hp, if_pos hq]
      constructor
      · intro h
        omega
      · intro h
        omega
    · rw [if_neg hp, if_neg hq]
      constructor
      · intro h
        omega
      · intro h
        omega

/-- Concrete predicted instance map used to witness C7. -/
def predMapW : Pos 2 1 1 → ℕ := fun p => if p.1.val = 0 then 1 else 2

/-- Witness for C7 at a concrete instance map with two instances and
`n_gt = 3`, with the bound hypothesis discharged by evaluation. -/
theorem c7_reconciliation_witness :
    (∀ p, predMapW p ≤ 2) ∧
      ((∀ p, reconcile predMapW 2 3 p ≠ 0 →
          reconcile predMapW 2 3 p = predMapW p + 3 ∧
            3 + 1 ≤ reconcile predMapW 2 3 p ∧
            reconcile predMapW 2 3 p ≤ 3 + 2 ∧
            reconcile predMapW 2 3 p ∉ Finset.Icc 1 3) ∧
        (∀ p q, reconcile predMapW 2 3 p = reconcile predMapW 2 3 q ↔
          predMapW p = predMapW q)) :=
  ⟨by decide, c7_reconciliation 2 1 1 predMapW 2 3 (by decide)⟩

/-- C4: the reported F1 equals `2*TP / (2*TP + FP + FN)` and lies in `[0, 1]`
whenever the denominator is non-zero; the denominator is zero exactly when
TP = FP = FN = 0, which happens exactly when no ground-truth and no predicted
instances exist, and then the result is the NaN sentinel (`none`), stored
unchanged in the cohort record. -/
theorem c4_f1_definedness :
    ∀ (d1 d2 d3 : ℕ) (labels preds : Vol d1 d2 d3) (lesion_class : ℤ),
      (2 * (tpGtSet labels preds lesion_class).card +
            (fpSet labels preds lesion_class).card +
            (fnSet labels preds lesion_class).card = 0 ↔
          (tpGtSet labels preds lesion_class).card = 0 ∧
            (fpSet labels preds lesion_class).card = 0 ∧
            (fnSet labels preds lesion_class).card = 0) ∧
        ((tpGtSet labels preds lesion_class).card = 0 ∧
            (fpSet labels preds lesion_class).card = 0 ∧
            (fnSet labels preds lesion_class).card = 0 ↔
          instCount labels lesion_class = 0 ∧ instCount preds lesion_class = 0) ∧
        (2 * (tpGtSet labels preds lesion_class).card +
            (fpSet labels preds lesion_class).card +
            (fnSet labels preds lesion_class).card = 0 →
          caseF1 (tpGtSet labels preds lesion_class).card
            (fpSet labels preds lesion_class).card
            (fnSet labels preds lesion_class).card = none) ∧
        (2 * (tpGtSet labels preds lesion_class).card +
            (fpSet labels preds lesion_class).card +
            (fnSet labels preds lesion_class).card ≠ 0 →
          ∃ q : ℚ,
            caseF1 (tpGtSet labels preds lesion_class).card
                (fpSet labels preds lesion_class).card
                (fnSet labels preds lesion_class).card = some q ∧
              q = (2 * (tpGtSet labels preds lesion_class).card : ℚ) /
                ((2 * (tpGtSet labels preds lesion_class).card +
                    (fpSet labels preds lesion_class).card +
                    (fnSet labels preds lesion_class).card : ℕ) : ℚ) ∧
              0 ≤ q ∧ q ≤ 1) ∧
        (∀ cid : String,
          computeAllLesionLevelMetrics [cid] (fun _ => labels) (fun _ => preds)
              lesion_class =
            [LesionRecord.mk cid (instCount labels lesion_class)
              (instCount preds lesion_class)
              (tpGtSet labels preds lesion_class).card
              (fpSet labels preds lesion_class).card
              (fnSet labels preds lesion_class).card
              (caseF1 (tpGtSet labels preds lesion_class).card
                (fpSet labels preds lesion_class).card
                (fnSet labels preds lesion_class).card)]) := by
  intro d1 d2 d3 labels preds c
  have hid1 := tpPredSet_card_add_fpSet_card labels preds c
  have hid2 := tpGtSet_card_add_fnSet_card labels preds c
  refine ⟨by omega, ?_, ?_, ?_, ?_⟩
  · constructor
    · rintro ⟨htp, hfp, hfn⟩
      have h1 : tpGtSet labels preds c = ∅ := Finset.card_eq_zero.mp htp
      have h2 : tpPredSet labels preds c = ∅ :=
        (tpGtSet_empty_iff_tpPredSet_empty labels preds c).mp h1
      have h3 : (tpPredSet labels preds c).card = 0 := by
        rw [h2]
        rfl
      omega
    · rintro ⟨hg, hp⟩
      omega
  · intro hzero
    unfold caseF1
    rw [if_pos hzero]
  · intro hne
    refine ⟨(2 * (tpGtSet labels preds c).card : ℚ) /
      ((2 * (tpGtSet labels preds c).card + (fpSet labels preds c).card +
          (fnSet labels preds c).card : ℕ) : ℚ), ?_, rfl, ?_, ?_⟩
    · unfold caseF1
      rw [if_neg hne]
    · apply div_nonneg
      · positivity
      · exact Nat.cast_nonneg _
    · have hpos : (0 : ℚ) <
          ((2 * (tpGtSet labels preds c).card + (fpSet labels preds c).card +
              (fnSet labels preds c).card : ℕ) : ℚ) := by
        exact_mod_cast Nat.pos_of_ne_zero hne
      rw [div_le_one hpos]
      push_cast
      have h1 : (0 : ℚ) ≤ ((fpSet labels preds c).card : ℚ) := Nat.cast_nonneg _
      have h2 : (0 : ℚ) ≤ ((fnSet labels preds c).card : ℚ) := Nat.cast_nonneg _
      linarith
  · intro cid
    rfl

/-- Concrete volume pair and lesion class for the witness of C4: identical
single-lesion ground truth and prediction. -/
theorem c4_f1_definedness_witness :
    (2 * (tpGtSet volB volB 2).card + (fpSet volB volB 2).card +
          (fnSet volB volB 2).card = 0 ↔
        (tpGtSet volB volB 2).card = 0 ∧ (fpSet volB volB 2).card = 0 ∧
          (fnSet volB volB 2).card = 0) ∧
      ((tpGtSet volB volB 2).card = 0 ∧ (fpSet volB volB 2).card = 0 ∧
          (fnSet volB volB 2).card = 0 ↔
        instCount volB 2 = 0 ∧ instCount volB 2 = 0) ∧
      (2 * (tpGtSet volB volB 2).card + (fpSet volB volB 2).card +
          (fnSet volB volB 2).card = 0 →
        caseF1 (tpGtSet volB volB 2).card (fpSet volB volB 2).card
          (fnSet volB volB 2).card = none) ∧
      (2 * (tpGtSet volB volB 2).card + (fpSet volB volB 2).card +
          (fnSet volB volB 2).card ≠ 0 →
        ∃ q : ℚ,
          caseF1 (tpGtSet volB volB 2).card (fpSet volB volB 2).card
              (fnSet volB volB 2).card = some q ∧
            q = (2 * (tpGtSet volB volB 2).card : ℚ) /
              ((2 * (tpGtSet volB volB 2).card + (fpSet volB volB 2).card +
                  (fnSet volB volB 2).card : ℕ) : ℚ) ∧
            0 ≤ q ∧ q ≤ 1) ∧
      (∀ cid : String,
        computeAllLesionLevelMetrics [cid] (fun _ => volB) (fun _ => volB) 2 =
          [LesionRecord.mk cid (instCount volB 2) (instCount volB 2)
            (tpGtSet volB volB 2).card (fpSet volB volB 2).card
            (fnSet volB volB 2).card
            (caseF1 (tpGtSet volB volB 2).card (fpSet volB volB 2).card
              (fnSet volB volB 2).card)]) :=
  c4_f1_definedness 1 1 1 volB volB 2

/-- Left table with case identifiers c1 and c2 (counterexample for C2). -/
def tableL : List (String × ℕ) := [("c1", 0), ("c2", 1)]

/-- Right table from which c2 is missing (counterexample for C2). -/
def tableR : List (String × ℕ) := [("c1", 10)]

/-- C2 counterexample: merging a two-row table with a table missing case "c2"
silently yields a one-row table — no error of any kind is raised (`mergeOn`
is a total function), contradicting the claim that a missing case identifier
raises a merge error and that the merge never silently drops rows. -/
theorem c2_counterexample :
    mergeOn tableL tableR = [("c1", 0, 10)] ∧
      (mergeOn tableL tableR).length = 1 ∧ tableL.length = 2 := by
  refine ⟨?_, ?_, rfl⟩ <;> rfl

/-- C2 amended: the merges at lines 237-238 and 258 are pandas default INNER
joins on `case_id`: the merged table keeps exactly the keys of the left table
that are present in the right table, every merged row combines the two
payloads found under its key, and unmatched case identifiers are silently
dropped rather than raising an error. -/
theorem c2_amended_inner_join :
    ∀ {α β : Type} (left : List (String × α)) (right : List (String × β)),
      (mergeOn left right).map Prod.fst =
          (left.map Prod.fst).filter (fun k => (right.lookup k).isSome) ∧
        ∀ k a b, (k, a, b) ∈ mergeOn left right →
          (k, a) ∈ left ∧ right.lookup k = some b :=
  fun left right =>
    ⟨mergeOn_keys left right, fun k a b h => mergeOn_mem left right k a b h⟩

/-- Witness for C2 amended at the concrete tables of the counterexample. -/
theorem c2_amended_inner_join_witness :
    (mergeOn tableL tableR).map Prod.fst =
        (tableL.map Prod.fst).filter (fun k => (tableR.lookup k).isSome) ∧
      ∀ k a b, (k, a, b) ∈ mergeOn tableL tableR →
        (k, a) ∈ tableL ∧ tableR.lookup k = some b :=
  c2_amended_inner_join tableL tableR

/-- A 1x1x1 all-background volume with runtime shape. -/
def nvolSmall : NVol := NVol.mk 1 1 1 (fun _ _ _ => 0)

/-- A 1x1x2 all-background volume (shape mismatch partner). -/
def nvolShape2 : NVol := NVol.mk 1 1 2 (fun _ _ _ => 0)

/-- A 1x1x3 all-background volume (shape mismatch partner, not broadcastable
against `nvolShape2`). -/
def nvolShape3 : NVol := NVol.mk 1 1 3 (fun _ _ _ => 0)

/-- Label dictionary for the C8 counterexample: case c2 has a 1x1x2 volume. -/
def labelsDictC8 : String → NVol := fun cid => if cid = "c2" then nvolShape2 else nvolSmall

/-- Prediction dictionary for the C8 counterexample: case c2 has a 1x1x3
volume, mismatching its 1x1x2 label volume. -/
def predsDictC8 : String → NVol := fun cid => if cid = "c2" then nvolShape3 else nvolSmall

/-- C8 counterexample: in a cohort whose first case is well-shaped and whose
second case has mismatched (non-broadcastable) volume shapes, the whole cohort
computation evaluates to an error: no per-case record survives (the
well-shaped case c1 included) and no table is produced, contradicting the
claim that the failing case is excluded with a record while the cohort loop
continues. -/
theorem c8_counterexample :
    computeAllChecked ["c1", "c2"] labelsDictC8 predsDictC8 2 =
        Except.error "operands could not be broadcast together" ∧
      ∀ l, computeAllChecked ["c1", "c2"] labelsDictC8 predsDictC8 2 ≠ Except.ok l := by
  refine ⟨rfl, ?_⟩
  intro l h
  have h2 : (Except.error "operands could not be broadcast together" :
      Except String (List (String × (ℕ × ℕ × ℕ × ℕ × ℕ)))) = Except.ok l := h
  exact Except.noConfusion h2

/-- C8 amended: a shape mismatch in ANY case of the cohort makes the whole
per-cohort computation fail with an uncaught error — the loop of
`compute_all_lesion_level_metrics` has no try/except, so the error propagates,
aborting the loop; the mismatched case is not recorded and excluded
individually. -/
theorem c8_amended_abort :
    ∀ (ids : List String) (labels_dict preds_dict : String → NVol) (lesion_class : ℤ),
      (∃ cid ∈ ids, ¬ sameShape (labels_dict cid) (preds_dict cid)) →
        ∃ msg, computeAllChecked ids labels_dict preds_dict lesion_class =
          Except.error msg :=
  fun ids L P c h => computeAllChecked_error_of_mismatch ids L P c h

/-- Witness for C8 amended at the concrete mismatched cohort. -/
theorem c8_amended_abort_witness :
    (∃ cid ∈ ["c1", "c2"], ¬ sameShape (labelsDictC8 cid) (predsDictC8 cid)) ∧
      ∃ msg, computeAllChecked ["c1", "c2"] labelsDictC8 predsDictC8 2 =
        Except.error msg :=
  ⟨by decide, c8_amended_abort ["c1", "c2"] labelsDictC8 predsDictC8 2 (by decide)⟩

/-- Volume of constant class 1, for the C9 counterexample. -/
def volNine1 : Vol 1 1 1 := fun _ => 1

/-- Volume of constant class 2, for the C9 counterexample. -/
def volNine2 : Vol 1 1 1 := fun _ => 2

/-- Volume provider for the C9 counterexample. -/
def readC9 : String → Vol 1 1 1 × Vol 1 1 1 :=
  fun cid => if cid = "c1" then (volNine1, volNine1) else (volNine2, volNine2)

/-- C9 counterexample: `get_all_preds_and_labels` returns cohort-wide
dictionaries simultaneously holding EVERY case's full decoded volumes — in the
script these dictionaries are built before any per-case metric computation,
are the very dictionaries indexed per case by both per-class cohort passes,
and (for the MSSEG2 cohort) are read again afterwards to build the confusion
matrix — so while case c2 is processed, case c1's decoded volumes are still
retained, contradicting the claim that each case's volumes are released
before the next case's computation begins. -/
theorem c9_counterexample :
    (getAllPredsAndLabels readC9 ["c1", "c2"]).1 =
        [("c1", volNine1), ("c2", volNine2)] ∧
      (getAllPredsAndLabels readC9 ["c1", "c2"]).2 =
        [("c1", volNine1), ("c2", volNine2)] ∧
      (getAllPredsAndLabels readC9 ["c1", "c2"]).1.lookup "c1" = some volNine1 := by
  refine ⟨?_, ?_, ?_⟩ <;> rfl

/-- C9 amended: the script loads all cases' decoded volumes up front:
`get_all_preds_and_labels` returns two cohort-wide dictionaries with one entry
per case ID, each holding that case's full decoded volume, and these
dictionaries persist through the per-case cohort passes (for MSSEG2 they feed
the confusion matrix afterwards; the test-split ones are deleted only after
both passes). -/
theorem c9_amended_retention :
    ∀ (d1 d2 d3 : ℕ) (read : String → Vol d1 d2 d3 × Vol d1 d2 d3)
      (ids : List String),
      (getAllPredsAndLabels read ids).1.length = ids.length ∧
        (getAllPredsAndLabels read ids).2.length = ids.length ∧
        ∀ cid ∈ ids,
          (getAllPredsAndLabels read ids).1.lookup cid = some (read cid).1 ∧
            (getAllPredsAndLabels read ids).2.lookup cid = some (read cid).2 := by
  intro d1 d2 d3 read ids
  rw [getAllPredsAndLabels_eq]
  refine ⟨by simp, by simp, ?_⟩
  intro cid hcid
  constructor
  · exact lookup_map_self ids (fun c => (read c).1) cid hcid
  · exact lookup_map_self ids (fun c => (read c).2) cid hcid

/-- Witness for C9 amended at the concrete two-case cohort. -/
theorem c9_amended_retention_witness :
    (getAllPredsAndLabels readC9 ["c1", "c2"]).1.length = (["c1", "c2"] : List String).length ∧
      (getAllPredsAndLabels readC9 ["c1", "c2"]).2.length = (["c1", "c2"] : List String).length ∧
      ∀ cid ∈ (["c1", "c2"] : List String),
        (getAllPredsAndLabels readC9 ["c1", "c2"]).1.lookup cid = some (readC9 cid).1 ∧
          (getAllPredsAndLabels readC9 ["c1", "c2"]).2.lookup cid = some (readC9 cid).2 :=
  c9_amended_retention 1 1 1 readC9 ["c1", "c2"]

/-- C10: `compute_lesion_level_metrics` never mutates its input arrays: in the
heap model the cells holding `labels` and `preds` are bit-for-bit unchanged
after the call — the relabeling loop writes only into the `np.copy` of the
predicted instance map — and a repeated call (e.g. for the second lesion
class, or any later read such as the confusion matrix) sees exactly the same
inputs and returns exactly the same result. -/
theorem c10_no_input_mutation :
    ∀ (d1 d2 d3 : ℕ) (m : Mem d1 d2 d3) (labelsRef predsRef : ℕ) (lesion_class : ℤ),
      labelsRef < m.next → predsRef < m.next →
        (computeLesionLevelMetricsMem m labelsRef predsRef lesion_class).1.store
            labelsRef = m.store labelsRef ∧
          (computeLesionLevelMetricsMem m labelsRef predsRef lesion_class).1.store
            predsRef = m.store predsRef ∧
          ∀ c' : ℤ,
            (computeLesionLevelMetricsMem
                (computeLesionLevelMetricsMem m labelsRef predsRef lesion_class).1
                labelsRef predsRef c').2 =
              (computeLesionLevelMetricsMem m labelsRef predsRef c').2 := by
  intro d1 d2 d3 m lr pr c hl hp
  obtain ⟨h1, h2, h3, -⟩ := computeMem_frame m lr pr c hl hp
  refine ⟨h1, h2, ?_⟩
  intro c'
  obtain ⟨-, -, -, g4⟩ := computeMem_frame
    (computeLesionLevelMetricsMem m lr pr c).1 lr pr c' (by omega) (by omega)
  obtain ⟨-, -, -, k4⟩ := computeMem_frame m lr pr c' hl hp
  rw [g4, k4, h1, h2]

/-- A concrete two-cell heap for the C10 witness. -/
def memW : Mem 1 1 1 := Mem.mk (fun i => fun _ => (i : ℤ)) 2

/-- Witness for C10 at a concrete heap holding the two input arrays at
references 0 and 1, with the validity hypotheses discharged by evaluation. -/
theorem c10_no_input_mutation_witness :
    (0 < memW.next ∧ 1 < memW.next) ∧
      ((computeLesionLevelMetricsMem memW 0 1 2).1.store 0 = memW.store 0 ∧
        (computeLesionLevelMetricsMem memW 0 1 2).1.store 1 = memW.store 1 ∧
        ∀ c' : ℤ,
          (computeLesionLevelMetricsMem (computeLesionLevelMetricsMem memW 0 1 2).1
              0 1 c').2 =
            (computeLesionLevelMetricsMem memW 0 1 c').2) :=
  ⟨⟨by decide, by decide⟩,
    c10_no_input_mutation 1 1 1 memW 0 1 2 (by decide) (by decide)⟩

end LesionEval
